import Mathlib

/-!
# ppapi/cpp/paint_manager.cc and ppapi/cpp/font.cc

A shallow embedding of `pp::PaintManager` (src/cpp/paint_manager.cc) and theorems about its
flush / wake-up scheduling, followed by the copy operations of `pp::FontDescription`
(src/cpp/font.cc).

Conventions of the embedding

* `PP_DCHECK(c)` is an assertion: when `c` is false the call stops at once (`Outcome.fault`,
  carrying the state reached at that point); dereferencing a NULL `instance_` or `client_`
  stops the call in the same way.
* The collaborators whose code is not in `paint_manager.cc` (the paint aggregator, the
  rectangle primitives) are a parameter `X : Collaborators` of every function, so the theorems
  hold for every implementation of them.
* The client's `OnPaint` is an environment input: each paint cycle is given a `PaintResponse`
  holding the damage calls the client makes from inside `OnPaint`, the value `OnPaint`
  returns and the value the device's `Flush` returns.
* Two ghost fields record what the code asks of its environment: `log` (the calls made to the
  host, the device and the client, in order) and `pending_callbacks` (the completion callbacks
  handed out and not yet delivered).
-/

namespace pp

/-! ## Value types -/

/-- The class `pp::Size`: a width and a height. -/
structure Size where
  width : Int
  height : Int
deriving DecidableEq, Repr

/-- The class `pp::Point`. -/
structure Point where
  x : Int
  y : Int
deriving DecidableEq, Repr

/-- The class `pp::Rect`: origin and size. -/
structure Rect where
  x : Int
  y : Int
  width : Int
  height : Int
deriving DecidableEq, Repr

/-- The constructor `Rect(const Size&)`: the rectangle at the origin with the given size (the
full surface bounds). -/
def Rect.ofSize (s : Size) : Rect := ⟨0, 0, s.width, s.height⟩

/-- The struct `PaintAggregator::PaintUpdate`, with the five members `DoPaint` reads. -/
structure PaintUpdate where
  has_scroll : Bool
  scroll_delta : Point
  scroll_rect : Rect
  paint_rects : List Rect
  paint_bounds : Rect
deriving DecidableEq, Repr

/-- Modelled from the spec: the class `DeviceContext2D` (declared outside paint_manager.cc). A
device is null or not, has a size, and remembers the opacity it was created with. -/
structure DeviceContext2D where
  is_null : Bool
  size : Size
  is_always_opaque_ : Bool
deriving DecidableEq, Repr

/-- The default constructor `DeviceContext2D()`: the null device, of size 0x0. -/
def DeviceContext2D.null : DeviceContext2D := ⟨true, ⟨0, 0⟩, false⟩

/-- Modelled from the spec: the constructor `DeviceContext2D(size, is_always_opaque)`
("allocates a new surface of new_size honoring always_opaque"). The host may refuse the
allocation (`alloc_ok = false`); the result is then the null device. -/
def DeviceContext2D.create (size : Size) ( is_always_opaque : Bool) (alloc_ok : Bool) :
    DeviceContext2D :=
  if alloc_ok then ⟨false, size, is_always_opaque⟩ else DeviceContext2D.null

/-- The value returned by the device's `Flush` (the constants of ppapi/c/pp_errors.h that
`DoPaint` tells apart, and any other error). -/
inductive FlushResult where
  | PP_OK
  | PP_ERROR_WOULDBLOCK
  | PP_ERROR_INPROGRESS
  | other_error
deriving DecidableEq, Repr

/-- The two member functions a completion callback of the factory can be bound to. -/
inductive CallbackKind where
  | OnManualCallbackComplete
  | OnFlushComplete
deriving DecidableEq, Repr

/-- Modelled from the spec: a callback made by `callback_factory_.NewCallback` ("tag each
scheduled callback with the surface generation it was issued for"). -/
structure Callback where
  kind : CallbackKind
  generation : Nat
deriving DecidableEq, Repr

/-- A call the paint manager makes to its environment. `Flush` also records the value
`flush_pending_` had when the device's `Flush` was called. -/
inductive Effect where
  | CallOnMainThread (delay_in_ms : Int)
  | BindGraphicsDeviceContext (device : DeviceContext2D)
  | CancelAll
  | Scroll (clip : Rect) (amount : Point)
  | OnPaint (paint_rects : List Rect) (paint_bounds : Rect)
  | Flush (flush_pending : Bool)
deriving DecidableEq, Repr

/-- A damage call of the public interface, as the client may make it from inside `OnPaint`. -/
inductive Damage where
  | Invalidate
  | InvalidateRect (rect : Rect)
  | ScrollRect (clip_rect : Rect) (amount : Point)
deriving DecidableEq, Repr

/-- What the environment does in one paint cycle: the damage calls the client makes from inside
`OnPaint`, the value `OnPaint` returns, and the value the device's `Flush` returns. -/
structure PaintResponse where
  calls : List Damage
  painted : Bool
  flush_result : FlushResult
deriving DecidableEq, Repr

/-! ## Collaborators -/

/-- The code `paint_manager.cc` calls and does not define: the class `PaintAggregator` (the
member `aggregator_` and its five member functions) and the two `Rect` operations used by
`InvalidateRect`. -/
structure Collaborators where
  Aggregator : Type
  aggregator_new : Aggregator
  InvalidateRect : Aggregator → Rect → Aggregator
  ScrollRect : Aggregator → Rect → Point → Aggregator
  GetPendingUpdate : Aggregator → PaintUpdate
  ClearPendingUpdate : Aggregator → Aggregator
  HasPendingUpdate : Aggregator → Bool
  Intersect : Rect → Rect → Rect
  IsEmpty : Rect → Bool

/-- Modelled from the spec: the two facts about the aggregator (paint_aggregator.cc is not
among the sources) that the scheduler relies on. The spec says "clear_pending_update(): resets
to empty state (no rects, no scroll)" and "has_pending_update(): true iff paint_rects is
non-empty or has_scroll", so neither a fresh nor a cleared aggregator reports a pending
update. -/
structure Collaborators.Lawful (X : Collaborators) : Prop where
  new_not_pending : X.HasPendingUpdate X.aggregator_new = false
  clear_not_pending : ∀ a, X.HasPendingUpdate (X.ClearPendingUpdate a) = false

/-! ## The paint manager -/

/-- The members of `pp::PaintManager`, the generation of `callback_factory_`, and the two ghost
fields. Pointers are `Option` (NULL is `none`). -/
structure PaintManager (X : Collaborators) where
  instance_ : Option Nat
  client_ : Option Nat
  is_always_opaque_ : Bool
  device_ : DeviceContext2D
  aggregator_ : X.Aggregator
  manual_callback_pending_ : Bool
  flush_pending_ : Bool
  generation : Nat
  pending_callbacks : List Callback
  log : List Effect

/-- The result of a call: it returned (`ok`), or it was stopped by a failed `PP_DCHECK` or a
NULL dereference (`fault`), in the state given. -/
inductive Outcome (σ : Type) where
  | ok (s : σ)
  | fault (s : σ)

/-- The state an outcome carries. -/
def Outcome.state {σ : Type} : Outcome σ → σ
  | .ok s => s
  | .fault s => s

/-- Whether the call returned. -/
def Outcome.isOk {σ : Type} : Outcome σ → Bool
  | .ok _ => true
  | .fault _ => false

variable {X : Collaborators}

/-- The constructor `PaintManager::PaintManager()`. Its initializer list sets `instance_`,
`client_`, `is_always_opaque_` and the factory only: the two pending flags start with
whatever values `manual` and `flush` the memory holds. -/
def PaintManager.new (X : Collaborators) (manual flush : Bool) : PaintManager X :=
  { instance_ := none
    client_ := none
    is_always_opaque_ := false
    device_ := DeviceContext2D.null
    aggregator_ := X.aggregator_new
    manual_callback_pending_ := manual
    flush_pending_ := flush
    generation := 0
    pending_callbacks := []
    log := [] }

/-- The constructor `PaintManager::PaintManager(instance, client, is_always_opaque)`, with its
`PP_DCHECK(client)`. -/
def PaintManager.new3 (X : Collaborators) (manual flush : Bool) (inst client : Option Nat)
    ( is_always_opaque : Bool) : Outcome (PaintManager X) :=
  let s : PaintManager X :=
    { PaintManager.new X manual flush with
      instance_ := inst
      client_ := client
      is_always_opaque_ := is_always_opaque }
  if client.isSome then .ok s else .fault s

/-- The function `PaintManager::Initialize`. -/
def Initialize (s : PaintManager X) (inst client : Option Nat) ( is_always_opaque : Bool) :
    Outcome (PaintManager X) :=
  -- PP_DCHECK(!instance_ && !client_)
  if s.instance_.isNone && s.client_.isNone then
    .ok { s with instance_ := inst, client_ := client, is_always_opaque_ := is_always_opaque }
  else .fault s

/-- The function `PaintManager::EnsureCallbackPending`. -/
def EnsureCallbackPending (s : PaintManager X) : PaintManager X :=
  if s.flush_pending_ then s
  else if s.manual_callback_pending_ then s
  else
    -- CallOnMainThread(0, NewCallback(&PaintManager::OnManualCallbackComplete), 0)
    { s with
      manual_callback_pending_ := true
      pending_callbacks :=
        s.pending_callbacks ++ [⟨CallbackKind.OnManualCallbackComplete, s.generation⟩]
      log := s.log ++ [Effect.CallOnMainThread 0] }

/-- The function `PaintManager::Invalidate`. -/
def Invalidate (s : PaintManager X) : Outcome (PaintManager X) :=
  -- PP_DCHECK(!device_.is_null())
  if s.device_.is_null then .fault s
  else
    let s1 := EnsureCallbackPending s
    .ok { s1 with aggregator_ := X.InvalidateRect s1.aggregator_ (Rect.ofSize s1.device_.size) }

/-- The function `PaintManager::InvalidateRect`. -/
def InvalidateRect (s : PaintManager X) (rect : Rect) : Outcome (PaintManager X) :=
  -- PP_DCHECK(!device_.is_null())
  if s.device_.is_null then .fault s
  else
    let clipped_rect := X.Intersect rect (Rect.ofSize s.device_.size)
    if X.IsEmpty clipped_rect then .ok s
    else
      let s1 := EnsureCallbackPending s
      .ok { s1 with aggregator_ := X.InvalidateRect s1.aggregator_ clipped_rect }

/-- The function `PaintManager::ScrollRect`. -/
def ScrollRect (s : PaintManager X) (clip_rect : Rect) (amount : Point) :
    Outcome (PaintManager X) :=
  -- PP_DCHECK(!device_.is_null())
  if s.device_.is_null then .fault s
  else
    let s1 := EnsureCallbackPending s
    .ok { s1 with aggregator_ := X.ScrollRect s1.aggregator_ clip_rect amount }

/-- The function `PaintManager::SetSize`. `alloc_ok` says whether the host allocates the new
device. -/
def SetSize (s : PaintManager X) (new_size : Size) (alloc_ok : Bool) :
    Outcome (PaintManager X) :=
  if new_size = s.device_.size then .ok s
  else
    let s1 := { s with device_ := DeviceContext2D.create new_size s.is_always_opaque_ alloc_ok }
    if s1.device_.is_null then .ok s1
    else
      match s1.instance_ with
      | none => .fault s1
      | some _ =>
        -- instance_->BindGraphicsDeviceContext(device_)
        let s2 := { s1 with log := s1.log ++ [Effect.BindGraphicsDeviceContext s1.device_] }
        let s3 := { s2 with manual_callback_pending_ := false, flush_pending_ := false }
        -- callback_factory_.CancelAll(): callbacks of the old generation become no-ops
        let s4 := { s3 with generation := s3.generation + 1, log := s3.log ++ [Effect.CancelAll] }
        Invalidate s4

/-- One damage call. -/
def applyDamage (s : PaintManager X) : Damage → Outcome (PaintManager X)
  | .Invalidate => Invalidate s
  | .InvalidateRect rect => InvalidateRect s rect
  | .ScrollRect clip_rect amount => ScrollRect s clip_rect amount

/-- The damage calls the client makes from inside `OnPaint`, in order; a fault stops them. -/
def clientCalls (s : PaintManager X) : List Damage → Outcome (PaintManager X)
  | [] => .ok s
  | d :: ds =>
    match applyDamage s d with
    | .ok s1 => clientCalls s1 ds
    | .fault s1 => .fault s1

/-- The calls `device_.Scroll` of a paint cycle: one if the update has a scroll. -/
def scrollEffects (update : PaintUpdate) : List Effect :=
  if update.has_scroll then [Effect.Scroll update.scroll_rect update.scroll_delta] else []

/-- The state of `DoPaint` at the moment `client_->OnPaint` is invoked: the update has been
copied out, the aggregator cleared, the scroll applied. -/
def atOnPaint (s : PaintManager X) : PaintManager X :=
  let update := X.GetPendingUpdate s.aggregator_
  { s with
    aggregator_ := X.ClearPendingUpdate s.aggregator_
    log := s.log ++ scrollEffects update ++
      [Effect.OnPaint update.paint_rects update.paint_bounds] }

/-- The part of `DoPaint` after `OnPaint` returned true: the `Flush` and the handling of its
result. The flush callback is outstanding when the device answers would-block. -/
def flushAfterPaint (s : PaintManager X) (result : FlushResult) : Outcome (PaintManager X) :=
  let s1 := { s with
    log := s.log ++ [Effect.Flush s.flush_pending_]
    pending_callbacks :=
      if result = FlushResult.PP_ERROR_WOULDBLOCK then
        s.pending_callbacks ++ [⟨CallbackKind.OnFlushComplete, s.generation⟩]
      else s.pending_callbacks }
  -- PP_DCHECK(result != PP_ERROR_INPROGRESS)
  if result = FlushResult.PP_ERROR_INPROGRESS then .fault s1
  else if result = FlushResult.PP_ERROR_WOULDBLOCK then .ok { s1 with flush_pending_ := true }
  -- PP_DCHECK(result == PP_OK)
  else if result = FlushResult.PP_OK then .ok s1
  else .fault s1

/-- The function `PaintManager::DoPaint`. -/
def DoPaint (s : PaintManager X) (resp : PaintResponse) : Outcome (PaintManager X) :=
  -- PP_DCHECK(aggregator_.HasPendingUpdate())
  if X.HasPendingUpdate s.aggregator_ then
    match s.client_ with
    | none =>
      -- client_ is NULL: the call of OnPaint cannot be made
      .fault { atOnPaint s with
        log := s.log ++ scrollEffects (X.GetPendingUpdate s.aggregator_) }
    | some _ =>
      match clientCalls (atOnPaint s) resp.calls with
      | .fault s1 => .fault s1
      | .ok s1 =>
        if resp.painted then flushAfterPaint s1 resp.flush_result
        else .ok s1
  else .fault s

/-- The function `PaintManager::OnFlushComplete`. -/
def OnFlushComplete (s : PaintManager X) (resp : PaintResponse) : Outcome (PaintManager X) :=
  -- PP_DCHECK(flush_pending_)
  if s.flush_pending_ then
    let s1 := { s with flush_pending_ := false }
    if X.HasPendingUpdate s1.aggregator_ then DoPaint s1 resp else .ok s1
  else .fault s

/-- The function `PaintManager::OnManualCallbackComplete`. -/
def OnManualCallbackComplete (s : PaintManager X) (resp : PaintResponse) :
    Outcome (PaintManager X) :=
  -- PP_DCHECK(manual_callback_pending_)
  if s.manual_callback_pending_ then
    let s1 := { s with manual_callback_pending_ := false }
    if X.HasPendingUpdate s1.aggregator_ then DoPaint s1 resp else .ok s1
  else .fault s

/-- Modelled from the spec: delivery of the callback at position `i` of the outstanding
callbacks ("already-fired callbacks are ignored by checking the associated generation", and
"callbacks are delivered in the order their underlying async operations complete", which the
scheduler does not control). `none` when there is no such callback. -/
def deliver (s : PaintManager X) (i : Nat) (resp : PaintResponse) :
    Option (Outcome (PaintManager X)) :=
  match s.pending_callbacks[i]? with
  | none => none
  | some cb =>
    let s1 := { s with pending_callbacks := s.pending_callbacks.eraseIdx i }
    if cb.generation = s.generation then
      match cb.kind with
      | .OnManualCallbackComplete => some (OnManualCallbackComplete s1 resp)
      | .OnFlushComplete => some (OnFlushComplete s1 resp)
    else some (.ok s1)

/-- A top-level call on the paint manager: a call of the public interface by the plugin, or
the delivery of an outstanding completion callback by the host. -/
inductive Event where
  | Initialize (inst client : Option Nat) ( is_always_opaque : Bool)
  | SetSize (new_size : Size) (alloc_ok : Bool)
  | Invalidate
  | InvalidateRect (rect : Rect)
  | ScrollRect (clip_rect : Rect) (amount : Point)
  | Deliver (i : Nat) (resp : PaintResponse)
deriving DecidableEq, Repr

/-- One top-level call. `none` when the event cannot happen. -/
def step (s : PaintManager X) : Event → Option (Outcome (PaintManager X))
  | .Initialize inst client o => some (Initialize s inst client o)
  | .SetSize new_size alloc_ok => some (SetSize s new_size alloc_ok)
  | .Invalidate => some (Invalidate s)
  | .InvalidateRect rect => some (InvalidateRect s rect)
  | .ScrollRect clip_rect amount => some (ScrollRect s clip_rect amount)
  | .Deliver i resp => deliver s i resp

/-- A sequence of top-level calls; it ends at the first fault. -/
def run (s : PaintManager X) : List Event → Option (Outcome (PaintManager X))
  | [] => some (.ok s)
  | e :: es =>
    match step s e with
    | some (.ok s1) => run s1 es
    | other => other

/-- What a damage call asks of the aggregator, in the spec's words: `invalidate` "invalidates
the full surface bounds in the aggregator", `invalidate_rect` "clips rect to surface bounds; if
the clipped result is empty, no-op; otherwise forwards to the aggregator", `scroll_rect`
"forwards to the aggregator". -/
def damageOnAggregator (X : Collaborators) (device : DeviceContext2D) (a : X.Aggregator) :
    Damage → X.Aggregator
  | .Invalidate => X.InvalidateRect a (Rect.ofSize device.size)
  | .InvalidateRect rect =>
    if X.IsEmpty (X.Intersect rect (Rect.ofSize device.size)) then a
    else X.InvalidateRect a (X.Intersect rect (Rect.ofSize device.size))
  | .ScrollRect clip_rect amount => X.ScrollRect a clip_rect amount

/-- Whether an effect is a call of the client's `OnPaint`. -/
def Effect.isOnPaint : Effect → Bool
  | .OnPaint _ _ => true
  | _ => false

/-- Whether an effect is a call of the device's `Flush`. -/
def Effect.isFlush : Effect → Bool
  | .Flush _ => true
  | _ => false

/-- Whether an effect is a `CallOnMainThread` scheduling. -/
def Effect.isSchedule : Effect → Bool
  | .CallOnMainThread _ => true
  | _ => false

/-- The number of `Flush` calls in a log. -/
def flushCount (log : List Effect) : Nat := (log.filter Effect.isFlush).length

/-- The number of `CallOnMainThread` schedulings in a log. -/
def scheduleCount (log : List Effect) : Nat := (log.filter Effect.isSchedule).length

/-- The outstanding callbacks that have not been cancelled: those of the current generation. -/
def liveCallbacks (s : PaintManager X) : List Callback :=
  s.pending_callbacks.filter (fun cb => cb.generation = s.generation)

/-- The manual wake-up callback of the current generation. -/
def manualCallback (s : PaintManager X) : Callback :=
  ⟨CallbackKind.OnManualCallbackComplete, s.generation⟩

/-- The flush completion callback of the current generation. -/
def flushCallback (s : PaintManager X) : Callback :=
  ⟨CallbackKind.OnFlushComplete, s.generation⟩

/-- What the damage calls leave alone: the configuration, the device, `flush_pending_` and the
generation; the log grows by zero-delay schedulings only and the outstanding callbacks by
manual wake-ups of the current generation only. -/
structure DamageFrame (s t : PaintManager X) : Prop where
  instance_eq : t.instance_ = s.instance_
  client_eq : t.client_ = s.client_
  opaque_eq : t.is_always_opaque_ = s.is_always_opaque_
  device_eq : t.device_ = s.device_
  flush_eq : t.flush_pending_ = s.flush_pending_
  generation_eq : t.generation = s.generation
  log_eq : ∃ tail, t.log = s.log ++ tail ∧ ∀ e ∈ tail, e = Effect.CallOnMainThread 0
  callbacks_eq : ∃ tail, t.pending_callbacks = s.pending_callbacks ++ tail ∧
    ∀ cb ∈ tail, cb = manualCallback s

/-- Every outstanding callback was made in the current or an earlier generation. -/
def CallbacksWf (s : PaintManager X) : Prop :=
  ∀ cb ∈ s.pending_callbacks, cb.generation ≤ s.generation

/-- Each pending flag has its callback of the current generation among the outstanding ones. -/
def FlagsBacked (s : PaintManager X) : Prop :=
  (s.manual_callback_pending_ = true → manualCallback s ∈ s.pending_callbacks) ∧
  (s.flush_pending_ = true → flushCallback s ∈ s.pending_callbacks)

/-- A pending update in the aggregator has a pending flag. -/
def DamageCovered (s : PaintManager X) : Prop :=
  X.HasPendingUpdate s.aggregator_ = true →
    s.manual_callback_pending_ = true ∨ s.flush_pending_ = true

/-- No `SetSize` has allocated a device yet: no device, no damage, no callback. -/
def NeverSized (s : PaintManager X) : Prop :=
  s.device_.is_null = true ∧ X.HasPendingUpdate s.aggregator_ = false ∧
    s.pending_callbacks = []

/-- The scheduler invariant that holds between top-level calls. -/
def SchedInv (s : PaintManager X) : Prop :=
  NeverSized s ∨ (DamageCovered s ∧ FlagsBacked s ∧ CallbacksWf s)

/-- The state in which `SetSize` calls `Invalidate` when it has allocated and bound the new
device: flags reset, callbacks of the old generation cancelled. -/
def resized (s : PaintManager X) (new_size : Size) : PaintManager X :=
  { s with
    device_ := ⟨false, new_size, s.is_always_opaque_⟩
    manual_callback_pending_ := false
    flush_pending_ := false
    generation := s.generation + 1
    log := s.log ++
      [Effect.BindGraphicsDeviceContext ⟨false, new_size, s.is_always_opaque_⟩, Effect.CancelAll] }

/-! ## A reference implementation of the collaborators -/

/-- Modelled from the spec: rectangle emptiness (rect.h is not among the sources; the spec
lists "rectangle union/intersect/emptiness" as assumed primitives). -/
def Rect.IsEmpty (r : Rect) : Bool := decide (r.width ≤ 0) || decide (r.height ≤ 0)

/-- The right edge of a rectangle. -/
def Rect.right (r : Rect) : Int := r.x + r.width

/-- The bottom edge of a rectangle. -/
def Rect.bottom (r : Rect) : Int := r.y + r.height

/-- Modelled from the spec: rectangle intersection (rect.cc is not among the sources); the
empty rectangle at the origin when the two do not overlap. -/
def Rect.Intersect (a b : Rect) : Rect :=
  let rx := max a.x b.x
  let ry := max a.y b.y
  let rr := min a.right b.right
  let rb := min a.bottom b.bottom
  if rx ≥ rr ∨ ry ≥ rb then ⟨0, 0, 0, 0⟩ else ⟨rx, ry, rr - rx, rb - ry⟩

/-- Modelled from the spec: rectangle union (rect.cc is not among the sources), the bounding
box of two rectangles; an empty rectangle adds nothing. -/
def Rect.Union (a b : Rect) : Rect :=
  if a.IsEmpty then b
  else if b.IsEmpty then a
  else
    let rx := min a.x b.x
    let ry := min a.y b.y
    let rr := max a.right b.right
    let rb := max a.bottom b.bottom
    ⟨rx, ry, rr - rx, rb - ry⟩

/-- Modelled from the spec: "fully contained in" for rectangles (rect.cc is not among the
sources). -/
def Rect.Contains (a b : Rect) : Bool :=
  decide (a.x ≤ b.x) && decide (b.right ≤ a.right) && decide (a.y ≤ b.y) &&
    decide (b.bottom ≤ a.bottom)

/-- Modelled from the spec: a rectangle "translated by delta" (rect.h is not among the
sources). -/
def Rect.Offset (r : Rect) (d : Point) : Rect := ⟨r.x + d.x, r.y + d.y, r.width, r.height⟩

/-- Modelled from the spec: the PendingUpdate state of the UpdateAggregator
(paint_aggregator.cc is not among the sources); `paint_bounds` is recomputed from
`paint_rects`. -/
structure SpecAggregator where
  paint_rects : List Rect
  has_scroll : Bool
  scroll_rect : Rect
  scroll_delta : Point
deriving DecidableEq, Repr

/-- Modelled from the spec: the empty aggregator state (paint_aggregator.cc is not among the
sources), "no rects, no scroll". -/
def SpecAggregator.empty : SpecAggregator := ⟨[], false, ⟨0, 0, 0, 0⟩, ⟨0, 0⟩⟩

/-- Modelled from the spec: `paint_bounds` (paint_aggregator.cc is not among the sources),
"the union of paint_rects (empty if paint_rects is empty)". -/
def SpecAggregator.paint_bounds (a : SpecAggregator) : Rect :=
  a.paint_rects.foldl Rect.Union ⟨0, 0, 0, 0⟩

/-- Modelled from the spec: `invalidate_rect` (paint_aggregator.cc is not among the sources).
An empty rect is a no-op; a rect contained in an existing entry is a no-op; otherwise the
entries the rect contains are removed and the rect is appended. -/
def SpecAggregator.InvalidateRect (a : SpecAggregator) (rect : Rect) : SpecAggregator :=
  if rect.IsEmpty then a
  else if a.paint_rects.any (fun e => e.Contains rect) then a
  else { a with paint_rects := a.paint_rects.filter (fun e => !rect.Contains e) ++ [rect] }

/-- Modelled from the spec: `scroll_rect` (paint_aggregator.cc is not among the sources). A
pending scroll whose delta differs, or whose scrolled common region no longer overlaps
`clip_rect`, is turned into an invalidate of its clip rect. Pending paint rects meeting the
scrolled region move with it and are clipped again (the aggregator is not told the surface
bounds: the clip rect of the scroll stands for them), those left empty are dropped. Then the
new scroll is recorded. -/
def SpecAggregator.ScrollRect (a : SpecAggregator) (clip_rect : Rect) (delta : Point) :
    SpecAggregator :=
  let a1 :=
    if a.has_scroll then
      let combined := a.scroll_rect.Intersect clip_rect
      if a.scroll_delta ≠ delta ∨ ((combined.Offset delta).Intersect clip_rect).IsEmpty then
        SpecAggregator.InvalidateRect { a with has_scroll := false } a.scroll_rect
      else a
    else a
  let moved := a1.paint_rects.map (fun r =>
    if (r.Intersect clip_rect).IsEmpty then r else (r.Offset delta).Intersect clip_rect)
  { paint_rects := moved.filter (fun r => !r.IsEmpty)
    has_scroll := true
    scroll_rect := clip_rect
    scroll_delta := delta }

/-- Modelled from the spec: `get_pending_update` (paint_aggregator.cc is not among the
sources), the current state without mutation. -/
def SpecAggregator.GetPendingUpdate (a : SpecAggregator) : PaintUpdate :=
  { has_scroll := a.has_scroll
    scroll_delta := a.scroll_delta
    scroll_rect := a.scroll_rect
    paint_rects := a.paint_rects
    paint_bounds := a.paint_bounds }

/-- Modelled from the spec: `clear_pending_update` (paint_aggregator.cc is not among the
sources), "resets to empty state (no rects, no scroll)". -/
def SpecAggregator.ClearPendingUpdate (_ : SpecAggregator) : SpecAggregator :=
  SpecAggregator.empty

/-- Modelled from the spec: `has_pending_update` (paint_aggregator.cc is not among the
sources), "true iff paint_rects is non-empty or has_scroll". -/
def SpecAggregator.HasPendingUpdate (a : SpecAggregator) : Bool :=
  !a.paint_rects.isEmpty || a.has_scroll

/-- The collaborators as the spec describes them. -/
def specX : Collaborators :=
  { Aggregator := SpecAggregator
    aggregator_new := SpecAggregator.empty
    InvalidateRect := SpecAggregator.InvalidateRect
    ScrollRect := SpecAggregator.ScrollRect
    GetPendingUpdate := SpecAggregator.GetPendingUpdate
    ClearPendingUpdate := SpecAggregator.ClearPendingUpdate
    HasPendingUpdate := SpecAggregator.HasPendingUpdate
    Intersect := Rect.Intersect
    IsEmpty := Rect.IsEmpty }

/-! ## Concrete scenarios -/

/-- A default-constructed manager (both flags happen to hold `true`) after
`Initialize(instance, client, false)`. -/
def started : PaintManager specX :=
  (Initialize (PaintManager.new specX true true) (some 1) (some 2) false).state

/-- The full bounds of a 100x100 surface. -/
def full100 : Rect := ⟨0, 0, 100, 100⟩

/-- A client that invalidates the whole surface from inside `OnPaint` and reports that it
painted; the device answers the flush with would-block. -/
def respReinvalidate : PaintResponse := ⟨[Damage.Invalidate], true, FlushResult.PP_ERROR_WOULDBLOCK⟩

/-- A client that paints and raises no damage; the device refuses the flush because one is in
progress. -/
def respPaintInProgress : PaintResponse := ⟨[], true, FlushResult.PP_ERROR_INPROGRESS⟩

/-- A client that raises no damage and reports that nothing was painted. -/
def respNothing : PaintResponse := ⟨[], false, FlushResult.PP_OK⟩

/-- A client that paints and raises no damage; the device completes the flush at once. -/
def respPaintOk : PaintResponse := ⟨[], true, FlushResult.PP_OK⟩

/-- The surface is sized to 100x100, the wake-up fires and the client invalidates again while
painting. -/
def reentrantCycle : List Event :=
  [Event.SetSize ⟨100, 100⟩ true, Event.Deliver 0 respReinvalidate]

/-- The 100x100 manager after `SetSize` and before any completion. -/
def sized : PaintManager specX := (SetSize started ⟨100, 100⟩ true).state

/-- The 100x100 manager at the moment its first manual wake-up has fired and
`OnManualCallbackComplete` calls `DoPaint`: the callback is delivered, the flag cleared. -/
def woken : PaintManager specX :=
  { sized with manual_callback_pending_ := false, pending_callbacks := [] }

/-- The 100x100 manager after `SetSize` and a first paint cycle in which the client reported
that nothing was painted: no wake-up and no flush is pending. -/
def idle : PaintManager specX :=
  match run started [Event.SetSize ⟨100, 100⟩ true, Event.Deliver 0 respNothing] with
  | some o => o.state
  | none => started

/-- The 100x100 manager after `SetSize` and the first paint cycle, in which the client
invalidated again: a manual wake-up and a flush completion are both outstanding. -/
def afterReentrantCycle : PaintManager specX :=
  match run started reentrantCycle with
  | some o => o.state
  | none => started

/-- A client that paints and raises no damage; the device answers would-block. -/
def respPaintWouldBlock : PaintResponse := ⟨[], true, FlushResult.PP_ERROR_WOULDBLOCK⟩

/-- A client that invalidates the whole surface from inside `OnPaint` and reports that nothing
was painted. -/
def respDamageNoPaint : PaintResponse := ⟨[Damage.Invalidate], false, FlushResult.PP_OK⟩

/-- The manager with a wake-up and a flush outstanding after its flush completion was
delivered first and painted the pending damage: the wake-up is still outstanding and the
aggregator is empty. -/
def drained : PaintManager specX :=
  match deliver afterReentrantCycle 1 respPaintOk with
  | some o => o.state
  | none => afterReentrantCycle

/-- The spec's scroll scenario on the idle 100x100 manager: invalidate (0,0,10,10), then scroll
the clip (0,0,100,100) by (5,0). -/
def scrollScenario : List Event :=
  [Event.InvalidateRect ⟨0, 0, 10, 10⟩, Event.ScrollRect ⟨0, 0, 100, 100⟩ ⟨5, 0⟩]

/-- The 100x100 manager with the damage of the scroll scenario pending. -/
def scrollPending : PaintManager specX :=
  match run idle scrollScenario with
  | some o => o.state
  | none => idle

/-- The manager of the scroll scenario at the moment its wake-up has fired and
`OnManualCallbackComplete` calls `DoPaint`. -/
def wokenWithScroll : PaintManager specX :=
  { scrollPending with
    manual_callback_pending_ := false
    pending_callbacks := scrollPending.pending_callbacks.eraseIdx 0 }

/-! ## More notions for the claims -/

/-- Whether an effect is a call of the device's `Scroll`. -/
def Effect.isScroll : Effect → Bool
  | .Scroll _ _ => true
  | _ => false

/-- Whether a damage call gets as far as `EnsureCallbackPending` on the given device:
`Invalidate` and `ScrollRect` always do, `InvalidateRect` does unless the clipped rectangle is
empty. -/
def Damage.ensures (X : Collaborators) (device : DeviceContext2D) : Damage → Bool
  | .Invalidate => true
  | .InvalidateRect rect => !X.IsEmpty (X.Intersect rect (Rect.ofSize device.size))
  | .ScrollRect _ _ => true

/-- The number of manual wake-up callbacks that are scheduled, not yet delivered and not
cancelled. -/
def manualCount (s : PaintManager X) : Nat :=
  s.pending_callbacks.count (manualCallback s)

/-- The flag `manual_callback_pending_` counts the live manual callbacks. -/
def ManualCounted (s : PaintManager X) : Prop :=
  manualCount s = if s.manual_callback_pending_ = true then 1 else 0

/-- The invariant behind the assertion of `OnManualCallbackComplete`: nothing has happened yet
(no device was bound, no callback is outstanding), or the flag counts the live manual
callbacks. -/
def ManualInv (s : PaintManager X) : Prop :=
  (s.log = [] ∧ s.pending_callbacks = [] ∧ s.device_.is_null = true) ∨
    (ManualCounted s ∧ CallbacksWf s)

/-- Whether an event is a `SetSize` for which the host allocates a device. -/
def Event.allocates : Event → Bool
  | .SetSize _ alloc_ok => alloc_ok
  | _ => false

/-- The state in which a size-changing `SetSize` returns when the device was allocated: the
state `resized` after its `Invalidate`. -/
def afterResize (s : PaintManager X) (new_size : Size) : PaintManager X :=
  { resized s new_size with
    manual_callback_pending_ := true
    pending_callbacks := s.pending_callbacks ++ [⟨CallbackKind.OnManualCallbackComplete,
      s.generation + 1⟩]
    log := s.log ++
      [Effect.BindGraphicsDeviceContext ⟨false, new_size, s.is_always_opaque_⟩,
        Effect.CancelAll, Effect.CallOnMainThread 0]
    aggregator_ := X.InvalidateRect s.aggregator_ (Rect.ofSize new_size) }

/-- The idle 100x100 manager after a scroll of the whole surface by (5,0) and a resize to
50x50. -/
def scrolledThenResized : List Event :=
  [Event.ScrollRect ⟨0, 0, 100, 100⟩ ⟨5, 0⟩, Event.SetSize ⟨50, 50⟩ true]

/-! ## ppapi/cpp/font.cc: FontDescription -/

/-- The class `pp::FontDescription`: the face (a string `Var`, `none` when undefined) and the
seven plain members of `pp_font_description_`. -/
structure FontDescription where
  face : Option String
  family : Int
  size : Int
  weight : Int
  italic : Bool
  small_caps : Bool
  letter_spacing : Int
  word_spacing : Int
deriving DecidableEq, Repr

/-- The function `FontDescription::swap`: the two objects after the call, `this` first. -/
def FontDescription.swap (self other : FontDescription) : FontDescription × FontDescription :=
  ({ face := other.face
     family := other.family
     size := other.size
     weight := other.weight
     italic := other.italic
     small_caps := other.small_caps
     letter_spacing := other.letter_spacing
     word_spacing := other.word_spacing },
   { face := self.face
     family := self.family
     size := self.size
     weight := self.weight
     italic := self.italic
     small_caps := self.small_caps
     letter_spacing := self.letter_spacing
     word_spacing := self.word_spacing })

mutual

/-- The copy constructor `FontDescription::FontDescription(const FontDescription& other)`,
whose body is `*this = other`. `fuel` bounds the depth of nested calls (`none`: the bound was
reached before the call returned); `raw n` is the content of the uninitialised members of an
object created at depth `n`; the face of a new object is the undefined `Var`. -/
def FontDescription.copyConstruct (raw : Nat → FontDescription) :
    Nat → FontDescription → Option FontDescription
  | 0, _ => none
  | fuel + 1, other =>
    FontDescription.assign raw fuel { raw fuel with face := none } other

/-- The function `FontDescription::operator=`: `FontDescription copy(other); swap(copy);
return *this;`. The result is `*this` after the call. -/
def FontDescription.assign (raw : Nat → FontDescription) :
    Nat → FontDescription → FontDescription → Option FontDescription
  | 0, _, _ => none
  | fuel + 1, self, other =>
    match FontDescription.copyConstruct raw fuel other with
    | none => none
    | some copy => some (FontDescription.swap self copy).1

end

/-! ## Lemmas on the damage calls -/

section Lemmas

variable {X : Collaborators}

theorem EnsureCallbackPending_frame (s : PaintManager X) :
    DamageFrame s (EnsureCallbackPending s) := by
  unfold EnsureCallbackPending
  split_ifs
  · exact ⟨rfl, rfl, rfl, rfl, rfl, rfl, ⟨[], by simp⟩, ⟨[], by simp⟩⟩
  · exact ⟨rfl, rfl, rfl, rfl, rfl, rfl, ⟨[], by simp⟩, ⟨[], by simp⟩⟩
  · exact ⟨rfl, rfl, rfl, rfl, rfl, rfl, ⟨[Effect.CallOnMainThread 0], by simp⟩,
      ⟨[manualCallback s], by simp [manualCallback]⟩⟩

@[simp] theorem EnsureCallbackPending_aggregator (s : PaintManager X) :
    (EnsureCallbackPending s).aggregator_ = s.aggregator_ := by
  unfold EnsureCallbackPending
  split_ifs <;> rfl

@[simp] theorem EnsureCallbackPending_device (s : PaintManager X) :
    (EnsureCallbackPending s).device_ = s.device_ :=
  (EnsureCallbackPending_frame s).device_eq

@[simp] theorem EnsureCallbackPending_flush (s : PaintManager X) :
    (EnsureCallbackPending s).flush_pending_ = s.flush_pending_ :=
  (EnsureCallbackPending_frame s).flush_eq

@[simp] theorem EnsureCallbackPending_generation (s : PaintManager X) :
    (EnsureCallbackPending s).generation = s.generation :=
  (EnsureCallbackPending_frame s).generation_eq

theorem EnsureCallbackPending_some_pending (s : PaintManager X) :
    (EnsureCallbackPending s).manual_callback_pending_ = true ∨
      (EnsureCallbackPending s).flush_pending_ = true := by
  unfold EnsureCallbackPending
  split_ifs with h1 h2
  · exact Or.inr h1
  · exact Or.inl h2
  · exact Or.inl rfl

theorem DamageFrame.refl (s : PaintManager X) : DamageFrame s s :=
  ⟨rfl, rfl, rfl, rfl, rfl, rfl, ⟨[], by simp⟩, ⟨[], by simp⟩⟩

theorem DamageFrame.trans {s t u : PaintManager X} (h1 : DamageFrame s t)
    (h2 : DamageFrame t u) : DamageFrame s u := by
  obtain ⟨l1, hl1, hl1'⟩ := h1.log_eq
  obtain ⟨l2, hl2, hl2'⟩ := h2.log_eq
  obtain ⟨c1, hc1, hc1'⟩ := h1.callbacks_eq
  obtain ⟨c2, hc2, hc2'⟩ := h2.callbacks_eq
  refine ⟨h2.instance_eq.trans h1.instance_eq, h2.client_eq.trans h1.client_eq,
    h2.opaque_eq.trans h1.opaque_eq, h2.device_eq.trans h1.device_eq,
    h2.flush_eq.trans h1.flush_eq, h2.generation_eq.trans h1.generation_eq,
    ⟨l1 ++ l2, by rw [hl2, hl1, List.append_assoc], ?_⟩,
    ⟨c1 ++ c2, by rw [hc2, hc1, List.append_assoc], ?_⟩⟩
  · intro e he
    rcases List.mem_append.mp he with h | h
    · exact hl1' e h
    · exact hl2' e h
  · intro cb hcb
    rcases List.mem_append.mp hcb with h | h
    · exact hc1' cb h
    · have := hc2' cb h
      simpa [manualCallback, h1.generation_eq] using this

/-- A frame that only replaces the aggregator. -/
theorem DamageFrame.with_aggregator {s t : PaintManager X} (h : DamageFrame s t)
    (a : X.Aggregator) : DamageFrame s { t with aggregator_ := a } :=
  ⟨h.instance_eq, h.client_eq, h.opaque_eq, h.device_eq, h.flush_eq, h.generation_eq,
    h.log_eq, h.callbacks_eq⟩

theorem Invalidate_ok (s : PaintManager X) (hdev : s.device_.is_null = false) :
    Invalidate s = .ok { EnsureCallbackPending s with
      aggregator_ := X.InvalidateRect s.aggregator_ (Rect.ofSize s.device_.size) } := by
  simp [Invalidate, hdev]

theorem InvalidateRect_ok_empty (s : PaintManager X) (rect : Rect)
    (hdev : s.device_.is_null = false)
    (hE : X.IsEmpty (X.Intersect rect (Rect.ofSize s.device_.size)) = true) :
    InvalidateRect s rect = .ok s := by
  simp [InvalidateRect, hdev, hE]

theorem InvalidateRect_ok_clipped (s : PaintManager X) (rect : Rect)
    (hdev : s.device_.is_null = false)
    (hE : X.IsEmpty (X.Intersect rect (Rect.ofSize s.device_.size)) = false) :
    InvalidateRect s rect = .ok { EnsureCallbackPending s with
      aggregator_ :=
        X.InvalidateRect s.aggregator_ (X.Intersect rect (Rect.ofSize s.device_.size)) } := by
  simp [InvalidateRect, hdev, hE]

theorem ScrollRect_ok (s : PaintManager X) (clip_rect : Rect) (amount : Point)
    (hdev : s.device_.is_null = false) :
    ScrollRect s clip_rect amount = .ok { EnsureCallbackPending s with
      aggregator_ := X.ScrollRect s.aggregator_ clip_rect amount } := by
  simp [ScrollRect, hdev]

/-- With a device, a damage call returns; it changes the aggregator as the spec says and leaves
the rest within the damage frame. -/
theorem applyDamage_ok (s : PaintManager X) (d : Damage) (hdev : s.device_.is_null = false) :
    ∃ t, applyDamage s d = .ok t ∧ DamageFrame s t ∧
      t.aggregator_ = damageOnAggregator X s.device_ s.aggregator_ d := by
  cases d with
  | Invalidate =>
    exact ⟨_, Invalidate_ok s hdev, (EnsureCallbackPending_frame s).with_aggregator _, rfl⟩
  | InvalidateRect rect =>
    by_cases hE : X.IsEmpty (X.Intersect rect (Rect.ofSize s.device_.size)) = true
    · exact ⟨s, InvalidateRect_ok_empty s rect hdev hE, DamageFrame.refl s,
        by simp [damageOnAggregator, hE]⟩
    · have hE' : X.IsEmpty (X.Intersect rect (Rect.ofSize s.device_.size)) = false := by
        simpa using hE
      exact ⟨_, InvalidateRect_ok_clipped s rect hdev hE',
        (EnsureCallbackPending_frame s).with_aggregator _, by simp [damageOnAggregator, hE']⟩
  | ScrollRect clip_rect amount =>
    exact ⟨_, ScrollRect_ok s clip_rect amount hdev,
      (EnsureCallbackPending_frame s).with_aggregator _, rfl⟩

/-- With a device, the damage calls made from inside `OnPaint` all return; the aggregator
receives them in order. -/
theorem clientCalls_ok (ds : List Damage) (s : PaintManager X)
    (hdev : s.device_.is_null = false) :
    ∃ t, clientCalls s ds = .ok t ∧ DamageFrame s t ∧
      t.aggregator_ = ds.foldl (damageOnAggregator X s.device_) s.aggregator_ := by
  induction ds generalizing s with
  | nil => exact ⟨s, rfl, DamageFrame.refl s, rfl⟩
  | cons d ds ih =>
    obtain ⟨t, ht, hft, hat⟩ := applyDamage_ok s d hdev
    obtain ⟨u, hu, hfu, hau⟩ := ih t (by rw [hft.device_eq]; exact hdev)
    refine ⟨u, by simp [clientCalls, ht, hu], hft.trans hfu, ?_⟩
    rw [hau, hat, hft.device_eq]
    rfl

end Lemmas

/-! ## The paint cycle -/

section PaintCycle

variable {X : Collaborators}

theorem flushCount_append (l1 l2 : List Effect) :
    flushCount (l1 ++ l2) = flushCount l1 + flushCount l2 := by
  simp [flushCount]

theorem flushCount_schedulings (l : List Effect) (h : ∀ e ∈ l, e = Effect.CallOnMainThread 0) :
    flushCount l = 0 := by
  unfold flushCount
  rw [List.length_eq_zero, List.filter_eq_nil_iff]
  intro e he
  rw [h e he]
  simp [Effect.isFlush]

theorem flushCount_scrollEffects (u : PaintUpdate) : flushCount (scrollEffects u) = 0 := by
  unfold scrollEffects flushCount
  split_ifs <;> simp [Effect.isFlush]

theorem flushAfterPaint_ok (s : PaintManager X) :
    flushAfterPaint s FlushResult.PP_OK =
      .ok { s with log := s.log ++ [Effect.Flush s.flush_pending_] } := by
  simp [flushAfterPaint]

theorem flushAfterPaint_wouldblock (s : PaintManager X) :
    flushAfterPaint s FlushResult.PP_ERROR_WOULDBLOCK =
      .ok { s with
        log := s.log ++ [Effect.Flush s.flush_pending_]
        pending_callbacks := s.pending_callbacks ++ [flushCallback s]
        flush_pending_ := true } := by
  simp [flushAfterPaint, flushCallback]

/-- The state in which the client's damage calls leave `DoPaint`, when there is a device. -/
theorem atOnPaint_clientCalls (s : PaintManager X) (calls : List Damage)
    (hdev : s.device_.is_null = false) :
    ∃ t, clientCalls (atOnPaint s) calls = .ok t ∧ DamageFrame (atOnPaint s) t ∧
      t.aggregator_ =
        calls.foldl (damageOnAggregator X s.device_) (X.ClearPendingUpdate s.aggregator_) :=
  clientCalls_ok calls (atOnPaint s) hdev

theorem SetSize_same (s : PaintManager X) (new_size : Size) (alloc_ok : Bool)
    (h : new_size = s.device_.size) : SetSize s new_size alloc_ok = .ok s := by
  simp [SetSize, h]

theorem SetSize_resized (s : PaintManager X) (new_size : Size)
    (h : new_size ≠ s.device_.size) (hinst : s.instance_.isSome = true) :
    SetSize s new_size true = Invalidate (resized s new_size) := by
  obtain ⟨i, hi⟩ := Option.isSome_iff_exists.mp hinst
  simp [SetSize, h, hi, DeviceContext2D.create, resized]

theorem Invalidate_resized (s : PaintManager X) (new_size : Size) :
    Invalidate (resized s new_size) = .ok { resized s new_size with
      manual_callback_pending_ := true
      pending_callbacks := s.pending_callbacks ++ [⟨CallbackKind.OnManualCallbackComplete,
        s.generation + 1⟩]
      log := s.log ++
        [Effect.BindGraphicsDeviceContext ⟨false, new_size, s.is_always_opaque_⟩,
          Effect.CancelAll, Effect.CallOnMainThread 0]
      aggregator_ := X.InvalidateRect s.aggregator_ (Rect.ofSize new_size) } := by
  simp [Invalidate, resized, EnsureCallbackPending]

end PaintCycle

/-! ## The scheduler invariant -/

section Invariant

variable {X : Collaborators}

theorem EnsureCallbackPending_backed (s : PaintManager X) (h : FlagsBacked s) :
    FlagsBacked (EnsureCallbackPending s) := by
  unfold EnsureCallbackPending
  split_ifs with hf hm
  · exact h
  · exact h
  · refine ⟨fun _ => ?_, fun h' => ?_⟩
    · simp [manualCallback]
    · exact absurd h' hf

theorem EnsureCallbackPending_wf (s : PaintManager X) (h : CallbacksWf s) :
    CallbacksWf (EnsureCallbackPending s) := by
  unfold EnsureCallbackPending
  split_ifs with hf hm
  · exact h
  · exact h
  · intro cb hcb
    rcases List.mem_append.mp hcb with h' | h'
    · exact h cb h'
    · rw [List.mem_singleton.mp h']

/-- After `EnsureCallbackPending` the state is covered whatever the aggregator then holds. -/
theorem EnsureCallbackPending_strong (s : PaintManager X) (a : X.Aggregator)
    (h2 : FlagsBacked s) (h3 : CallbacksWf s) :
    DamageCovered { EnsureCallbackPending s with aggregator_ := a } ∧
      FlagsBacked { EnsureCallbackPending s with aggregator_ := a } ∧
      CallbacksWf { EnsureCallbackPending s with aggregator_ := a } :=
  ⟨fun _ => EnsureCallbackPending_some_pending s, EnsureCallbackPending_backed s h2,
    EnsureCallbackPending_wf s h3⟩

theorem applyDamage_strong (s t : PaintManager X) (d : Damage)
    (h : DamageCovered s ∧ FlagsBacked s ∧ CallbacksWf s) (ht : applyDamage s d = .ok t) :
    DamageCovered t ∧ FlagsBacked t ∧ CallbacksWf t := by
  by_cases hdev : s.device_.is_null = true
  · cases d <;> simp [applyDamage, Invalidate, InvalidateRect, ScrollRect, hdev] at ht
  · have hdev' : s.device_.is_null = false := by simpa using hdev
    cases d with
    | Invalidate =>
      have := Invalidate_ok s hdev'
      simp only [applyDamage] at ht
      rw [this] at ht
      cases ht
      exact EnsureCallbackPending_strong s _ h.2.1 h.2.2
    | InvalidateRect rect =>
      simp only [applyDamage] at ht
      by_cases hE : X.IsEmpty (X.Intersect rect (Rect.ofSize s.device_.size)) = true
      · rw [InvalidateRect_ok_empty s rect hdev' hE] at ht
        cases ht
        exact h
      · rw [InvalidateRect_ok_clipped s rect hdev' (by simpa using hE)] at ht
        cases ht
        exact EnsureCallbackPending_strong s _ h.2.1 h.2.2
    | ScrollRect clip_rect amount =>
      simp only [applyDamage] at ht
      rw [ScrollRect_ok s clip_rect amount hdev'] at ht
      cases ht
      exact EnsureCallbackPending_strong s _ h.2.1 h.2.2

theorem clientCalls_strong (ds : List Damage) (s t : PaintManager X)
    (h : DamageCovered s ∧ FlagsBacked s ∧ CallbacksWf s) (ht : clientCalls s ds = .ok t) :
    DamageCovered t ∧ FlagsBacked t ∧ CallbacksWf t := by
  induction ds generalizing s with
  | nil =>
    simp only [clientCalls] at ht
    cases ht
    exact h
  | cons d ds ih =>
    simp only [clientCalls] at ht
    cases hd : applyDamage s d with
    | ok u =>
      rw [hd] at ht
      exact ih u (applyDamage_strong s u d h hd) ht
    | fault u =>
      rw [hd] at ht
      cases ht

theorem flushAfterPaint_strong (s t : PaintManager X) (r : FlushResult)
    (h : DamageCovered s ∧ FlagsBacked s ∧ CallbacksWf s) (ht : flushAfterPaint s r = .ok t) :
    DamageCovered t ∧ FlagsBacked t ∧ CallbacksWf t := by
  cases r with
  | PP_OK =>
    rw [flushAfterPaint_ok] at ht
    cases ht
    exact h
  | PP_ERROR_WOULDBLOCK =>
    rw [flushAfterPaint_wouldblock] at ht
    cases ht
    refine ⟨fun _ => Or.inr rfl, ⟨fun hm => ?_, fun _ => ?_⟩, ?_⟩
    · exact List.mem_append_left _ (h.2.1.1 hm)
    · simp [flushCallback]
    · intro cb hcb
      rcases List.mem_append.mp hcb with h' | h'
      · exact h.2.2 cb h'
      · rw [List.mem_singleton.mp h']
        exact Nat.le_refl _
  | PP_ERROR_INPROGRESS => simp [flushAfterPaint] at ht
  | other_error => simp [flushAfterPaint] at ht

/-- A paint cycle that returns leaves the state covered, whatever the client did: the cycle
starts from a cleared aggregator. -/
theorem DoPaint_strong (hX : X.Lawful) (s t : PaintManager X) (resp : PaintResponse)
    (h2 : FlagsBacked s) (h3 : CallbacksWf s) (ht : DoPaint s resp = .ok t) :
    DamageCovered t ∧ FlagsBacked t ∧ CallbacksWf t := by
  have hat : DamageCovered (atOnPaint s) ∧ FlagsBacked (atOnPaint s) ∧
      CallbacksWf (atOnPaint s) := by
    refine ⟨fun hp => ?_, h2, h3⟩
    have := hX.clear_not_pending s.aggregator_
    simp only [atOnPaint] at hp
    rw [this] at hp
    cases hp
  by_cases hp : X.HasPendingUpdate s.aggregator_ = true
  · cases hc : s.client_ with
    | none => simp [DoPaint, hp, hc] at ht
    | some c =>
      cases hu : clientCalls (atOnPaint s) resp.calls with
      | fault u => simp [DoPaint, hp, hc, hu] at ht
      | ok u =>
        have hus := clientCalls_strong resp.calls (atOnPaint s) u hat hu
        by_cases hpainted : resp.painted = true
        · simp only [DoPaint, hp, hc, hu, hpainted, if_true] at ht
          exact flushAfterPaint_strong u t resp.flush_result hus ht
        · simp only [DoPaint, hp, hc, hu, hpainted, if_true, if_false] at ht
          cases ht
          exact hus
  · simp [DoPaint, hp] at ht

/-- Removing the delivered callback keeps every other outstanding callback. -/
theorem mem_eraseIdx_of_ne {l : List Callback} {i : Nat} {cb x : Callback}
    (hi : l[i]? = some cb) (hx : x ∈ l) (hne : x ≠ cb) : x ∈ l.eraseIdx i := by
  obtain ⟨j, hj⟩ := List.mem_iff_getElem?.mp hx
  refine List.mem_eraseIdx_iff_getElem?.mpr ⟨j, ?_, hj⟩
  rintro rfl
  rw [hi] at hj
  exact hne (Option.some.inj hj).symm

theorem CallbacksWf_eraseIdx (s : PaintManager X) (i : Nat) (h : CallbacksWf s) :
    CallbacksWf { s with pending_callbacks := s.pending_callbacks.eraseIdx i } :=
  fun cb hcb => h cb (List.mem_of_mem_eraseIdx hcb)

/-- The delivery of an outstanding callback keeps the invariant. -/
theorem deliver_inv (hX : X.Lawful) (s t : PaintManager X) (i : Nat) (resp : PaintResponse)
    (h : SchedInv s) (ht : deliver s i resp = some (.ok t)) : SchedInv t := by
  rcases h with ⟨-, -, hnil⟩ | ⟨h1, h2, h3⟩
  · simp [deliver, hnil] at ht
  · cases hi : s.pending_callbacks[i]? with
    | none => simp [deliver, hi] at ht
    | some cb =>
      have hwf := CallbacksWf_eraseIdx s i h3
      by_cases hgen : cb.generation = s.generation
      · -- a callback of the current generation
        cases hk : cb.kind with
        | OnManualCallbackComplete =>
          have hback : FlagsBacked { s with
              pending_callbacks := s.pending_callbacks.eraseIdx i
              manual_callback_pending_ := false } := by
            refine ⟨fun hm => (by cases hm), fun hf => ?_⟩
            refine mem_eraseIdx_of_ne hi (h2.2 hf) ?_
            intro heq
            rw [← heq] at hk
            simp [flushCallback] at hk
          by_cases hm : s.manual_callback_pending_ = true
          · by_cases hp : X.HasPendingUpdate s.aggregator_ = true
            · simp only [deliver, hi, hgen, hk, OnManualCallbackComplete, hm, hp, if_true,
                Option.some.injEq] at ht
              exact Or.inr (DoPaint_strong hX _ t resp hback hwf ht)
            · simp [deliver, hi, hgen, hk, OnManualCallbackComplete, hm, hp] at ht
              subst ht
              exact Or.inr ⟨fun hp2 => absurd hp2 hp, hback, hwf⟩
          · simp [deliver, hi, hgen, hk, OnManualCallbackComplete, hm] at ht
        | OnFlushComplete =>
          have hback : FlagsBacked { s with
              pending_callbacks := s.pending_callbacks.eraseIdx i
              flush_pending_ := false } := by
            refine ⟨fun hm => ?_, fun hf => by cases hf⟩
            refine mem_eraseIdx_of_ne hi (h2.1 hm) ?_
            intro heq
            rw [← heq] at hk
            simp [manualCallback] at hk
          by_cases hm : s.flush_pending_ = true
          · by_cases hp : X.HasPendingUpdate s.aggregator_ = true
            · simp only [deliver, hi, hgen, hk, OnFlushComplete, hm, hp, if_true,
                Option.some.injEq] at ht
              exact Or.inr (DoPaint_strong hX _ t resp hback hwf ht)
            · simp [deliver, hi, hgen, hk, OnFlushComplete, hm, hp] at ht
              subst ht
              exact Or.inr ⟨fun hp2 => absurd hp2 hp, hback, hwf⟩
          · simp [deliver, hi, hgen, hk, OnFlushComplete, hm] at ht
      · -- a cancelled callback
        simp only [deliver, hi, hgen, if_false, Option.some.injEq, Outcome.ok.injEq] at ht
        subst ht
        refine Or.inr ⟨h1, ⟨fun hm => ?_, fun hf => ?_⟩, hwf⟩
        · refine mem_eraseIdx_of_ne hi (h2.1 hm) ?_
          intro heq
          exact hgen (by rw [← heq]; rfl)
        · refine mem_eraseIdx_of_ne hi (h2.2 hf) ?_
          intro heq
          exact hgen (by rw [← heq]; rfl)

/-- The call `SetSize` keeps the invariant. -/
theorem SetSize_inv (s t : PaintManager X) (new_size : Size) (alloc_ok : Bool)
    (h : SchedInv s) (ht : SetSize s new_size alloc_ok = .ok t) : SchedInv t := by
  by_cases hsame : new_size = s.device_.size
  · rw [SetSize_same s new_size alloc_ok hsame] at ht
    cases ht
    exact h
  · cases alloc_ok with
    | false =>
      simp [SetSize, hsame, DeviceContext2D.create, DeviceContext2D.null] at ht
      subst ht
      rcases h with ⟨_, hp, hnil⟩ | h
      · exact Or.inl ⟨rfl, hp, hnil⟩
      · exact Or.inr h
    | true =>
      cases hinst : s.instance_ with
      | none => simp [SetSize, hsame, DeviceContext2D.create, hinst] at ht
      | some c =>
        rw [SetSize_resized s new_size hsame (by simp [hinst]), Invalidate_resized] at ht
        cases ht
        refine Or.inr ⟨fun _ => Or.inl rfl, ⟨fun _ => ?_, fun hf => by cases hf⟩, ?_⟩
        · simp [manualCallback, resized]
        · intro cb hcb
          simp only [resized] at hcb ⊢
          rcases List.mem_append.mp hcb with h' | h'
          · rcases h with ⟨_, _, hnil⟩ | ⟨_, _, h3⟩
            · rw [hnil] at h'
              cases h'
            · exact Nat.le_succ_of_le (h3 cb h')
          · rw [List.mem_singleton.mp h']

/-- Every top-level call that returns keeps the invariant. -/
theorem step_inv (hX : X.Lawful) (s t : PaintManager X) (e : Event) (h : SchedInv s)
    (ht : step s e = some (.ok t)) : SchedInv t := by
  cases e with
  | Initialize inst client o =>
    simp only [step, Initialize, Option.some.injEq] at ht
    split_ifs at ht
    cases ht
    exact h
  | SetSize new_size alloc_ok => exact SetSize_inv s t new_size alloc_ok h (Option.some.inj ht)
  | Deliver i resp => exact deliver_inv hX s t i resp h ht
  | Invalidate =>
    rcases h with ⟨hnull, -, -⟩ | h
    · simp [step, Invalidate, hnull] at ht
    · exact Or.inr (applyDamage_strong s t Damage.Invalidate h (Option.some.inj ht))
  | InvalidateRect rect =>
    rcases h with ⟨hnull, -, -⟩ | h
    · simp [step, InvalidateRect, hnull] at ht
    · exact Or.inr (applyDamage_strong s t (Damage.InvalidateRect rect) h (Option.some.inj ht))
  | ScrollRect clip_rect amount =>
    rcases h with ⟨hnull, -, -⟩ | h
    · simp [step, ScrollRect, hnull] at ht
    · exact Or.inr
        (applyDamage_strong s t (Damage.ScrollRect clip_rect amount) h (Option.some.inj ht))

/-- The invariant holds after every sequence of top-level calls that return. -/
theorem run_inv (hX : X.Lawful) (evs : List Event) (s t : PaintManager X) (h : SchedInv s)
    (ht : run s evs = some (.ok t)) : SchedInv t := by
  induction evs generalizing s with
  | nil =>
    simp only [run, Option.some.injEq, Outcome.ok.injEq] at ht
    subst ht
    exact h
  | cons e es ih =>
    simp only [run] at ht
    cases he : step s e with
    | none => simp [he] at ht
    | some o =>
      cases o with
      | ok u =>
        rw [he] at ht
        exact ih u (step_inv hX s u e h he) ht
      | fault u =>
        rw [he] at ht
        simp at ht

/-- A freshly constructed manager satisfies the invariant, whatever its flags hold. -/
theorem new_inv (hX : X.Lawful) (manual flush : Bool) :
    SchedInv (PaintManager.new X manual flush) :=
  Or.inl ⟨rfl, hX.new_not_pending, rfl⟩

end Invariant

/-! ## Claims -/

section Claims

variable {X : Collaborators}

/-- C1 (the code breaks the claim). A 100x100 surface is set, the manual wake-up fires and the
client invalidates from inside `OnPaint` and paints; the flush answers would-block. A second
manual wake-up and the flush completion are now both outstanding. When the wake-up is
delivered first, `OnManualCallbackComplete` enters `DoPaint` and the device's `Flush` is called
while `flush_pending_` is true (the last entry of the log, `Flush true`); the device refuses
it and the assertion `result != PP_ERROR_INPROGRESS` stops the call. -/
theorem C1_flush_called_while_flush_pending :
    (run started reentrantCycle).map
        (fun o => (o.isOk, o.state.manual_callback_pending_, o.state.flush_pending_,
          o.state.pending_callbacks)) =
      some (true, true, true,
        [⟨CallbackKind.OnManualCallbackComplete, 1⟩, ⟨CallbackKind.OnFlushComplete, 1⟩]) ∧
    (run started (reentrantCycle ++ [Event.Deliver 0 respPaintInProgress])).map
        (fun o => (o.isOk, o.state.flush_pending_, o.state.log)) =
      some (false, true,
        [Effect.BindGraphicsDeviceContext ⟨false, ⟨100, 100⟩, false⟩,
         Effect.CancelAll,
         Effect.CallOnMainThread 0,
         Effect.OnPaint [full100] full100,
         Effect.CallOnMainThread 0,
         Effect.Flush false,
         Effect.OnPaint [full100] full100,
         Effect.Flush true]) := by
  decide

/-- C2. Snapshot isolation of the paint cycle: when `OnPaint` is invoked the aggregator has
been cleared and reports no pending update; `OnPaint` receives exactly the `paint_rects` and
`paint_bounds` of the update `GetPendingUpdate` returned on entry, whatever damage calls the
client then makes; `OnPaint` is not invoked again in the cycle; and when `DoPaint` is over the
aggregator holds exactly the client's damage calls, applied in order to the cleared state. -/
theorem C2_snapshot_isolation (hX : X.Lawful) (s : PaintManager X) (resp : PaintResponse)
    (hpending : X.HasPendingUpdate s.aggregator_ = true) (hclient : s.client_.isSome = true)
    (hdev : s.device_.is_null = false) :
    X.HasPendingUpdate (atOnPaint s).aggregator_ = false ∧
    (atOnPaint s).log = s.log ++ scrollEffects (X.GetPendingUpdate s.aggregator_) ++
      [Effect.OnPaint (X.GetPendingUpdate s.aggregator_).paint_rects
        (X.GetPendingUpdate s.aggregator_).paint_bounds] ∧
    (∃ tail, (DoPaint s resp).state.log = (atOnPaint s).log ++ tail ∧
      ∀ e ∈ tail, e.isOnPaint = false) ∧
    (DoPaint s resp).state.aggregator_ =
      resp.calls.foldl (damageOnAggregator X s.device_) (X.ClearPendingUpdate s.aggregator_) := by
  obtain ⟨c, hc⟩ := Option.isSome_iff_exists.mp hclient
  obtain ⟨t, ht, hft, hat⟩ := atOnPaint_clientCalls s resp.calls hdev
  obtain ⟨tail, htail, htail'⟩ := hft.log_eq
  have hsched : ∀ e ∈ tail, e.isOnPaint = false := by
    intro e he
    rw [htail' e he]
    rfl
  refine ⟨hX.clear_not_pending _, rfl, ?_, ?_⟩
  · by_cases hp : resp.painted = true
    · refine ⟨tail ++ [Effect.Flush t.flush_pending_], ?_, ?_⟩
      · simp only [DoPaint, hpending, hc, ht, hp, if_true, flushAfterPaint]
        split_ifs <;> simp [Outcome.state, htail, List.append_assoc]
      · intro e he
        rcases List.mem_append.mp he with h | h
        · exact hsched e h
        · rw [List.mem_singleton.mp h]
          rfl
    · refine ⟨tail, ?_, hsched⟩
      simp [DoPaint, hpending, hc, ht, hp, Outcome.state, htail]
  · by_cases hp : resp.painted = true
    · simp only [DoPaint, hpending, hc, ht, hp, if_true, flushAfterPaint]
      split_ifs <;> simp [Outcome.state, hat]
    · simp [DoPaint, hpending, hc, ht, hp, Outcome.state, hat]

/-- Witness of C2: the first paint cycle of a 100x100 surface, in which the client invalidates
again from inside `OnPaint`. -/
theorem C2_snapshot_isolation_witness :
    specX.HasPendingUpdate (atOnPaint sized).aggregator_ = false ∧
    (atOnPaint sized).log = sized.log ++ scrollEffects (specX.GetPendingUpdate sized.aggregator_) ++
      [Effect.OnPaint (specX.GetPendingUpdate sized.aggregator_).paint_rects
        (specX.GetPendingUpdate sized.aggregator_).paint_bounds] ∧
    (∃ tail, (DoPaint sized respReinvalidate).state.log = (atOnPaint sized).log ++ tail ∧
      ∀ e ∈ tail, e.isOnPaint = false) ∧
    (DoPaint sized respReinvalidate).state.aggregator_ =
      respReinvalidate.calls.foldl (damageOnAggregator specX sized.device_)
        (specX.ClearPendingUpdate sized.aggregator_) :=
  C2_snapshot_isolation ⟨by decide, fun _ => rfl⟩ sized respReinvalidate (by decide) (by decide)
    (by decide)

/-- C3 (the code breaks the claim). After the paint cycle in which the client invalidated from
inside `OnPaint` and painted, the manual wake-up it scheduled is delivered before the flush
completion: the client's `OnPaint` is called a second time (the last entry of the log) while
the flush of the first cycle is still outstanding (`flush_pending_` is true and its callback is
the one still waiting). -/
theorem C3_repaint_before_flush_completion :
    (run started (reentrantCycle ++ [Event.Deliver 0 respNothing])).map
        (fun o => (o.isOk, o.state.flush_pending_, o.state.pending_callbacks, o.state.log)) =
      some (true, true, [⟨CallbackKind.OnFlushComplete, 1⟩],
        [Effect.BindGraphicsDeviceContext ⟨false, ⟨100, 100⟩, false⟩,
         Effect.CancelAll,
         Effect.CallOnMainThread 0,
         Effect.OnPaint [full100] full100,
         Effect.CallOnMainThread 0,
         Effect.Flush false,
         Effect.OnPaint [full100] full100]) := by
  decide

/-- Once a wake-up or a flush is pending, further `Invalidate` calls schedule nothing. -/
theorem run_Invalidate_coalesced (n : Nat) (s : PaintManager X)
    (hdev : s.device_.is_null = false)
    (hp : s.manual_callback_pending_ = true ∨ s.flush_pending_ = true) :
    ∃ t, run s (List.replicate n Event.Invalidate) = some (.ok t) ∧
      t.manual_callback_pending_ = s.manual_callback_pending_ ∧
      t.flush_pending_ = s.flush_pending_ ∧ t.log = s.log ∧
      t.pending_callbacks = s.pending_callbacks := by
  induction n generalizing s with
  | zero => exact ⟨s, rfl, rfl, rfl, rfl, rfl⟩
  | succ n ih =>
    have hE : EnsureCallbackPending s = s := by
      unfold EnsureCallbackPending
      rcases hp with h | h
      · simp [h]
      · simp [h]
    obtain ⟨t, ht, h1, h2, h3, h4⟩ :=
      ih { s with aggregator_ := X.InvalidateRect s.aggregator_ (Rect.ofSize s.device_.size) }
        hdev hp
    refine ⟨t, ?_, h1, h2, h3, h4⟩
    simp only [List.replicate_succ, run, step, Invalidate_ok s hdev, hE]
    exact ht

/-- C4. Coalescing: from a manager with a device and neither a flush nor a manual wake-up
pending, N >= 1 consecutive `Invalidate` calls all return and together make exactly one
`CallOnMainThread` scheduling, with delay 0 (the log grows by that single entry and one manual
callback is added to the outstanding ones); `manual_callback_pending_` is true afterwards. -/
theorem C4_coalescing (s : PaintManager X) (N : Nat) (hN : 1 ≤ N)
    (hdev : s.device_.is_null = false) (hflush : s.flush_pending_ = false)
    (hmanual : s.manual_callback_pending_ = false) :
    ∃ t, run s (List.replicate N Event.Invalidate) = some (.ok t) ∧
      t.manual_callback_pending_ = true ∧
      t.flush_pending_ = false ∧
      t.log = s.log ++ [Effect.CallOnMainThread 0] ∧
      scheduleCount t.log = scheduleCount s.log + 1 ∧
      t.pending_callbacks = s.pending_callbacks ++ [manualCallback s] := by
  obtain ⟨n, rfl⟩ : ∃ n, N = n + 1 := ⟨N - 1, by omega⟩
  have hE : EnsureCallbackPending s = { s with
      manual_callback_pending_ := true
      pending_callbacks := s.pending_callbacks ++ [manualCallback s]
      log := s.log ++ [Effect.CallOnMainThread 0] } := by
    simp [EnsureCallbackPending, hflush, hmanual, manualCallback]
  obtain ⟨t, ht, h1, h2, h3, h4⟩ := run_Invalidate_coalesced n
    { s with
      manual_callback_pending_ := true
      pending_callbacks := s.pending_callbacks ++ [manualCallback s]
      log := s.log ++ [Effect.CallOnMainThread 0]
      aggregator_ := X.InvalidateRect s.aggregator_ (Rect.ofSize s.device_.size) }
    hdev (Or.inl rfl)
  refine ⟨t, ?_, h1, by rw [h2]; exact hflush, h3, ?_, h4⟩
  · simp only [List.replicate_succ, run, step, Invalidate_ok s hdev, hE]
    exact ht
  · rw [h3]
    simp [scheduleCount, Effect.isSchedule]

/-- Witness of C4: five `Invalidate` calls on a manager whose 100x100 surface has just had its
first paint cycle completed without a flush. -/
theorem C4_coalescing_witness :
    ∃ t, run idle (List.replicate 5 Event.Invalidate) = some (.ok t) ∧
      t.manual_callback_pending_ = true ∧
      t.flush_pending_ = false ∧
      t.log = idle.log ++ [Effect.CallOnMainThread 0] ∧
      scheduleCount t.log = scheduleCount idle.log + 1 ∧
      t.pending_callbacks = idle.pending_callbacks ++ [manualCallback idle] :=
  C4_coalescing idle 5 (by decide) (by decide) (by decide) (by decide)

/-- C5. The contract of `EnsureCallbackPending`: it schedules a manual wake-up exactly when
`flush_pending_` and `manual_callback_pending_` are both false on entry (in every case the log
grows by the schedulings listed, one of delay 0 or none); when it schedules it sets
`manual_callback_pending_`, hands out one manual callback and changes nothing else; in every
other case the state is unchanged. So no wake-up is scheduled while a flush or a manual wake-up
is pending. -/
theorem C5_ensure_callback_pending (s : PaintManager X) :
    (EnsureCallbackPending s).log = s.log ++
      (if s.flush_pending_ = false ∧ s.manual_callback_pending_ = false
        then [Effect.CallOnMainThread 0] else []) ∧
    (scheduleCount (EnsureCallbackPending s).log = scheduleCount s.log + 1 ↔
      (s.flush_pending_ = false ∧ s.manual_callback_pending_ = false)) ∧
    (s.flush_pending_ = false ∧ s.manual_callback_pending_ = false →
      EnsureCallbackPending s = { s with
        manual_callback_pending_ := true
        pending_callbacks := s.pending_callbacks ++ [manualCallback s]
        log := s.log ++ [Effect.CallOnMainThread 0] }) ∧
    (s.flush_pending_ = true ∨ s.manual_callback_pending_ = true →
      EnsureCallbackPending s = s) := by
  refine ⟨?_, ?_, ?_, ?_⟩
  · unfold EnsureCallbackPending
    cases s.flush_pending_ <;> cases s.manual_callback_pending_ <;> simp
  · unfold EnsureCallbackPending
    cases s.flush_pending_ <;> cases s.manual_callback_pending_ <;>
      simp [scheduleCount, Effect.isSchedule]
  · rintro ⟨h1, h2⟩
    simp [EnsureCallbackPending, h1, h2, manualCallback]
  · rintro (h | h)
    · simp [EnsureCallbackPending, h]
    · simp [EnsureCallbackPending, h]

/-- Witness of C5: on the idle 100x100 manager the wake-up is scheduled, and on the manager
with a wake-up and a flush outstanding nothing is. -/
theorem C5_ensure_callback_pending_witness :
    EnsureCallbackPending idle = { idle with
        manual_callback_pending_ := true
        pending_callbacks := idle.pending_callbacks ++ [manualCallback idle]
        log := idle.log ++ [Effect.CallOnMainThread 0] } ∧
    EnsureCallbackPending afterReentrantCycle = afterReentrantCycle :=
  ⟨(C5_ensure_callback_pending idle).2.2.1 ⟨by decide, by decide⟩,
   (C5_ensure_callback_pending afterReentrantCycle).2.2.2 (Or.inl (by decide))⟩

/-- C6 (the claim as stated fails). On the 100x100 manager whose wake-up has just fired, the
client paints and the device's `Flush` returns `PP_OK`: `DoPaint` returns, one `Flush` was
issued, and `flush_pending_` is false. -/
theorem C6_flush_ok_leaves_flush_pending_false :
    respPaintOk.painted = true ∧ respPaintOk.flush_result = FlushResult.PP_OK ∧
    (DoPaint woken respPaintOk).isOk = true ∧
    flushCount (DoPaint woken respPaintOk).state.log = flushCount woken.log + 1 ∧
    (DoPaint woken respPaintOk).state.flush_pending_ = false := by
  decide

/-- C6 (amended). In a paint cycle in which `OnPaint` reports that something was painted and
the device's `Flush` returns `PP_OK` or `PP_ERROR_WOULDBLOCK`, `DoPaint` returns and has issued
exactly one `Flush`; `flush_pending_` is true on return when the result is
`PP_ERROR_WOULDBLOCK`, and keeps the value it had on entry when the result is `PP_OK`. -/
theorem C6_flush_on_paint (s : PaintManager X) (resp : PaintResponse)
    (hpending : X.HasPendingUpdate s.aggregator_ = true) (hclient : s.client_.isSome = true)
    (hdev : s.device_.is_null = false) (hpainted : resp.painted = true)
    (hresult : resp.flush_result = FlushResult.PP_OK ∨
      resp.flush_result = FlushResult.PP_ERROR_WOULDBLOCK) :
    ∃ t, DoPaint s resp = .ok t ∧
      flushCount t.log = flushCount s.log + 1 ∧
      (resp.flush_result = FlushResult.PP_ERROR_WOULDBLOCK → t.flush_pending_ = true) ∧
      (resp.flush_result = FlushResult.PP_OK → t.flush_pending_ = s.flush_pending_) := by
  obtain ⟨c, hc⟩ := Option.isSome_iff_exists.mp hclient
  obtain ⟨u, hu, hfu, -⟩ := atOnPaint_clientCalls s resp.calls hdev
  obtain ⟨l, hl, hl'⟩ := hfu.log_eq
  have hcount : flushCount (u.log ++ [Effect.Flush u.flush_pending_]) = flushCount s.log + 1 := by
    rw [hl, flushCount_append, flushCount_append, flushCount_schedulings l hl']
    simp only [atOnPaint, flushCount_append, flushCount_scrollEffects]
    simp [flushCount, Effect.isFlush]
  have hflush : u.flush_pending_ = s.flush_pending_ := hfu.flush_eq
  have hD : DoPaint s resp = flushAfterPaint u resp.flush_result := by
    simp only [DoPaint, hpending, hc, hu, hpainted, if_true]
  rcases hresult with h | h
  · rw [hD, h, flushAfterPaint_ok]
    exact ⟨_, rfl, hcount, by simp, fun _ => hflush⟩
  · rw [hD, h, flushAfterPaint_wouldblock]
    exact ⟨_, rfl, hcount, fun _ => rfl, by simp⟩

/-- Witness of C6 (amended): the woken 100x100 manager, a client that paints and invalidates
again, a flush that answers would-block. -/
theorem C6_flush_on_paint_witness :
    ∃ t, DoPaint woken respReinvalidate = .ok t ∧
      flushCount t.log = flushCount woken.log + 1 ∧
      (respReinvalidate.flush_result = FlushResult.PP_ERROR_WOULDBLOCK →
        t.flush_pending_ = true) ∧
      (respReinvalidate.flush_result = FlushResult.PP_OK →
        t.flush_pending_ = woken.flush_pending_) :=
  C6_flush_on_paint woken respReinvalidate (by decide) (by decide) (by decide) (by decide)
    (Or.inr (by decide))

/-- C7. No-paint suppression: in a paint cycle in which `OnPaint` returns false, `DoPaint`
returns without a `Flush` (the log holds as many `Flush` calls as on entry, and no flush
callback was handed out: the new callbacks are manual wake-ups), `flush_pending_` has the value
it had on entry, and the snapshot is gone from the aggregator, which holds the client's damage
calls only. -/
theorem C7_no_paint_suppression (s : PaintManager X) (resp : PaintResponse)
    (hpending : X.HasPendingUpdate s.aggregator_ = true) (hclient : s.client_.isSome = true)
    (hdev : s.device_.is_null = false) (hpainted : resp.painted = false) :
    ∃ t, DoPaint s resp = .ok t ∧
      flushCount t.log = flushCount s.log ∧
      (∀ e ∈ t.log, e.isFlush = true → e ∈ s.log) ∧
      (∃ cbs, t.pending_callbacks = s.pending_callbacks ++ cbs ∧
        ∀ cb ∈ cbs, cb.kind = CallbackKind.OnManualCallbackComplete) ∧
      t.flush_pending_ = s.flush_pending_ ∧
      t.aggregator_ =
        resp.calls.foldl (damageOnAggregator X s.device_) (X.ClearPendingUpdate s.aggregator_) := by
  obtain ⟨c, hc⟩ := Option.isSome_iff_exists.mp hclient
  obtain ⟨u, hu, hfu, hau⟩ := atOnPaint_clientCalls s resp.calls hdev
  obtain ⟨l, hl, hl'⟩ := hfu.log_eq
  obtain ⟨cbs, hcbs, hcbs'⟩ := hfu.callbacks_eq
  refine ⟨u, by simp [DoPaint, hpending, hc, hu, hpainted], ?_, ?_, ⟨cbs, hcbs, ?_⟩,
    hfu.flush_eq, hau⟩
  · rw [hl, flushCount_append, flushCount_schedulings l hl']
    simp only [atOnPaint, flushCount_append, flushCount_scrollEffects]
    simp [flushCount, Effect.isFlush]
  · intro e he hflush
    rw [hl] at he
    rcases List.mem_append.mp he with h | h
    · simp only [atOnPaint, List.mem_append, List.mem_singleton] at h
      rcases h with (h | h) | h
      · exact h
      · unfold scrollEffects at h
        split_ifs at h
        · rw [List.mem_singleton.mp h] at hflush
          simp [Effect.isFlush] at hflush
        · simp at h
      · rw [h] at hflush
        simp [Effect.isFlush] at hflush
    · rw [hl' e h] at hflush
      simp [Effect.isFlush] at hflush
  · intro cb hcb
    rw [hcbs' cb hcb]
    rfl

/-- Witness of C7: the woken 100x100 manager and a client that reports nothing painted. -/
theorem C7_no_paint_suppression_witness :
    ∃ t, DoPaint woken respNothing = .ok t ∧
      flushCount t.log = flushCount woken.log ∧
      (∀ e ∈ t.log, e.isFlush = true → e ∈ woken.log) ∧
      (∃ cbs, t.pending_callbacks = woken.pending_callbacks ++ cbs ∧
        ∀ cb ∈ cbs, cb.kind = CallbackKind.OnManualCallbackComplete) ∧
      t.flush_pending_ = woken.flush_pending_ ∧
      t.aggregator_ = respNothing.calls.foldl (damageOnAggregator specX woken.device_)
        (specX.ClearPendingUpdate woken.aggregator_) :=
  C7_no_paint_suppression woken respNothing (by decide) (by decide) (by decide) (by decide)

/-- C8. `InvalidateRect` clipping, with a device: when the intersection of `rect` with the
device area is empty the call returns and changes nothing; otherwise it returns the state
`EnsureCallbackPending` yields, with the clipped rectangle (the intersection, not `rect`)
forwarded to the aggregator as it stood. -/
theorem C8_invalidate_rect_clipping (s : PaintManager X) (rect : Rect)
    (hdev : s.device_.is_null = false) :
    (X.IsEmpty (X.Intersect rect (Rect.ofSize s.device_.size)) = true →
      InvalidateRect s rect = .ok s) ∧
    (X.IsEmpty (X.Intersect rect (Rect.ofSize s.device_.size)) = false →
      InvalidateRect s rect = .ok { EnsureCallbackPending s with
        aggregator_ :=
          X.InvalidateRect s.aggregator_ (X.Intersect rect (Rect.ofSize s.device_.size)) }) :=
  ⟨InvalidateRect_ok_empty s rect hdev, InvalidateRect_ok_clipped s rect hdev⟩

/-- Witness of C8: on the idle 100x100 manager, a rectangle off the surface and a rectangle
that sticks out of it, clipped to (90,90,10,10). -/
theorem C8_invalidate_rect_clipping_witness :
    InvalidateRect idle ⟨200, 200, 10, 10⟩ = .ok idle ∧
    specX.Intersect ⟨90, 90, 50, 50⟩ (Rect.ofSize idle.device_.size) = ⟨90, 90, 10, 10⟩ ∧
    InvalidateRect idle ⟨90, 90, 50, 50⟩ = .ok { EnsureCallbackPending idle with
      aggregator_ := specX.InvalidateRect idle.aggregator_
        (specX.Intersect ⟨90, 90, 50, 50⟩ (Rect.ofSize idle.device_.size)) } :=
  ⟨(C8_invalidate_rect_clipping idle ⟨200, 200, 10, 10⟩ (by decide)).1 (by decide),
   by decide,
   (C8_invalidate_rect_clipping idle ⟨90, 90, 50, 50⟩ (by decide)).2 (by decide)⟩

/-- C9. Resize. `SetSize` with the current device size returns and changes nothing. With a
different size, a bound instance and a successful allocation, it installs and binds the new
device, resets both flags and cancels the callbacks (state `resized`), then runs `Invalidate`
there; on return the device is the new one, the log has grown by the bind, the cancellation and
one zero-delay scheduling, `flush_pending_` is false, `manual_callback_pending_` is true, the
only callback outstanding that is not cancelled is one manual wake-up, the aggregator has
received the new full bounds, and the delivery of any callback that was outstanding before the
resize does nothing but remove it from the outstanding ones. -/
theorem C9_resize (s : PaintManager X) (new_size : Size) :
    (new_size = s.device_.size → ∀ alloc_ok, SetSize s new_size alloc_ok = .ok s) ∧
    (new_size ≠ s.device_.size → s.instance_.isSome = true → CallbacksWf s →
      (resized s new_size).manual_callback_pending_ = false ∧
      (resized s new_size).flush_pending_ = false ∧
      SetSize s new_size true = Invalidate (resized s new_size) ∧
      ∃ t, SetSize s new_size true = .ok t ∧
        t.device_ = ⟨false, new_size, s.is_always_opaque_⟩ ∧
        t.log = s.log ++ [Effect.BindGraphicsDeviceContext t.device_, Effect.CancelAll,
          Effect.CallOnMainThread 0] ∧
        t.flush_pending_ = false ∧
        t.manual_callback_pending_ = true ∧
        liveCallbacks t = [manualCallback t] ∧
        t.aggregator_ = X.InvalidateRect s.aggregator_ (Rect.ofSize new_size) ∧
        ∀ i cb resp, s.pending_callbacks[i]? = some cb →
          deliver t i resp =
            some (.ok { t with pending_callbacks := t.pending_callbacks.eraseIdx i })) := by
  refine ⟨fun h a => SetSize_same s new_size a h, fun hne hinst hwf => ?_⟩
  refine ⟨rfl, rfl, SetSize_resized s new_size hne hinst,
    { resized s new_size with
      manual_callback_pending_ := true
      pending_callbacks := s.pending_callbacks ++ [⟨CallbackKind.OnManualCallbackComplete,
        s.generation + 1⟩]
      log := s.log ++
        [Effect.BindGraphicsDeviceContext ⟨false, new_size, s.is_always_opaque_⟩,
          Effect.CancelAll, Effect.CallOnMainThread 0]
      aggregator_ := X.InvalidateRect s.aggregator_ (Rect.ofSize new_size) },
    ?_, rfl, rfl, rfl, rfl, ?_, rfl, ?_⟩
  · rw [SetSize_resized s new_size hne hinst, Invalidate_resized]
  · have hnil : s.pending_callbacks.filter (fun cb => decide (cb.generation = s.generation + 1))
        = [] := by
      rw [List.filter_eq_nil_iff]
      intro cb hcb
      have := hwf cb hcb
      simp only [decide_eq_true_eq]
      omega
    simp [liveCallbacks, manualCallback, resized, List.filter_append, hnil]
  · intro i cb resp hi
    have hlt : i < s.pending_callbacks.length := (List.getElem?_eq_some.mp hi).1
    have hget : (s.pending_callbacks ++ [(⟨CallbackKind.OnManualCallbackComplete,
        s.generation + 1⟩ : Callback)])[i]? = some cb := by
      rw [List.getElem?_append_left hlt]
      exact hi
    have hgen : cb.generation ≠ s.generation + 1 := by
      have := hwf cb (List.mem_iff_getElem?.mpr ⟨i, hi⟩)
      omega
    simp [deliver, resized, hget, hgen]

/-- Witness of C9: the manager in which a manual wake-up and a flush completion are both
outstanding is resized, to its own size and to 50x50. -/
theorem C9_resize_witness :
    SetSize afterReentrantCycle ⟨100, 100⟩ true = .ok afterReentrantCycle ∧
    ∃ t, SetSize afterReentrantCycle ⟨50, 50⟩ true = .ok t ∧
      t.flush_pending_ = false ∧ t.manual_callback_pending_ = true ∧
      liveCallbacks t = [manualCallback t] ∧
      t.aggregator_ = specX.InvalidateRect afterReentrantCycle.aggregator_ ⟨0, 0, 50, 50⟩ ∧
      deliver t 1 respPaintOk =
        some (.ok { t with pending_callbacks := t.pending_callbacks.eraseIdx 1 }) :=
  ⟨(C9_resize afterReentrantCycle ⟨100, 100⟩).1 (by decide) true,
   match (C9_resize afterReentrantCycle ⟨50, 50⟩).2 (by decide) (by decide)
      (by unfold CallbacksWf; decide) with
   | ⟨_, _, _, t, h1, _, _, h4, h5, h6, h7, h8⟩ =>
     ⟨t, h1, h4, h5, h6, h7, h8 1 ⟨CallbackKind.OnFlushComplete, 1⟩ respPaintOk (by decide)⟩⟩

/-- C10. Damage is never lost: in every state reached from a freshly constructed manager by
top-level calls that return (`Initialize`, `SetSize`, the damage calls, completion deliveries,
with any damage the client raises inside `OnPaint`), if the aggregator reports a pending update
then `manual_callback_pending_` or `flush_pending_` is true, each flag that is true has its
callback of the current generation outstanding, and there is an outstanding callback whose
delivery enters `DoPaint` with the aggregator as it stands. -/
theorem C10_damage_never_lost (hX : X.Lawful) (manual flush : Bool) (evs : List Event)
    (t : PaintManager X) (hrun : run (PaintManager.new X manual flush) evs = some (.ok t))
    (hpending : X.HasPendingUpdate t.aggregator_ = true) :
    (t.manual_callback_pending_ = true ∨ t.flush_pending_ = true) ∧
    (t.manual_callback_pending_ = true → manualCallback t ∈ t.pending_callbacks) ∧
    (t.flush_pending_ = true → flushCallback t ∈ t.pending_callbacks) ∧
    ∃ i u, u.aggregator_ = t.aggregator_ ∧ ∀ resp, deliver t i resp = some (DoPaint u resp) := by
  rcases run_inv hX evs _ t (new_inv hX manual flush) hrun with ⟨-, hnp, -⟩ | ⟨h1, h2, -⟩
  · rw [hnp] at hpending
    cases hpending
  · refine ⟨h1 hpending, h2.1, h2.2, ?_⟩
    rcases h1 hpending with hm | hf
    · obtain ⟨i, hi⟩ := List.mem_iff_getElem?.mp (h2.1 hm)
      refine ⟨i, { t with
        pending_callbacks := t.pending_callbacks.eraseIdx i
        manual_callback_pending_ := false }, rfl, fun resp => ?_⟩
      simp [deliver, hi, manualCallback, OnManualCallbackComplete, hm, hpending]
    · obtain ⟨i, hi⟩ := List.mem_iff_getElem?.mp (h2.2 hf)
      refine ⟨i, { t with
        pending_callbacks := t.pending_callbacks.eraseIdx i
        flush_pending_ := false }, rfl, fun resp => ?_⟩
      simp [deliver, hi, flushCallback, OnFlushComplete, hf, hpending]

/-- Witness of C10: a manager is constructed, initialized and sized to 100x100; its first
paint cycle leaves the damage the client raised inside `OnPaint` in the aggregator. -/
theorem C10_damage_never_lost_witness :
    (afterReentrantCycle.manual_callback_pending_ = true ∨
      afterReentrantCycle.flush_pending_ = true) ∧
    (afterReentrantCycle.manual_callback_pending_ = true →
      manualCallback afterReentrantCycle ∈ afterReentrantCycle.pending_callbacks) ∧
    (afterReentrantCycle.flush_pending_ = true →
      flushCallback afterReentrantCycle ∈ afterReentrantCycle.pending_callbacks) ∧
    ∃ i u, u.aggregator_ = afterReentrantCycle.aggregator_ ∧
      ∀ resp, deliver afterReentrantCycle i resp = some (DoPaint u resp) :=
  C10_damage_never_lost ⟨by decide, fun _ => rfl⟩ true true
    (Event.Initialize (some 1) (some 2) false :: reentrantCycle) afterReentrantCycle
    (by rfl) (by decide)

/-- A damage call stays within the damage frame whether it returns or stops. -/
theorem applyDamage_state_frame (s : PaintManager X) (d : Damage) :
    DamageFrame s (applyDamage s d).state := by
  by_cases hdev : s.device_.is_null = true
  · cases d <;> simp [applyDamage, Invalidate, InvalidateRect, ScrollRect, hdev, Outcome.state]
      <;> exact DamageFrame.refl s
  · obtain ⟨t, ht, hft, -⟩ := applyDamage_ok s d (by simpa using hdev)
    rw [ht]
    exact hft

/-- The client's damage calls stay within the damage frame whether they return or stop. -/
theorem clientCalls_state_frame (ds : List Damage) (s : PaintManager X) :
    DamageFrame s (clientCalls s ds).state := by
  induction ds generalizing s with
  | nil => exact DamageFrame.refl s
  | cons d ds ih =>
    have hd := applyDamage_state_frame s d
    cases h : applyDamage s d with
    | ok u =>
      rw [h] at hd
      simp only [clientCalls, h]
      exact hd.trans (ih u)
    | fault u =>
      rw [h] at hd
      simp only [clientCalls, h]
      exact hd

/-- The log of a paint cycle that has a client: the entry log, the scroll of the snapshot if it
has one, the call of `OnPaint`, then only schedulings and possibly one `Flush`. -/
theorem DoPaint_log (s : PaintManager X) (resp : PaintResponse)
    (hpending : X.HasPendingUpdate s.aggregator_ = true) (hclient : s.client_.isSome = true) :
    ∃ tail, (DoPaint s resp).state.log = (atOnPaint s).log ++ tail ∧
      ∀ e ∈ tail, e.isScroll = false ∧ e.isOnPaint = false := by
  obtain ⟨c, hc⟩ := Option.isSome_iff_exists.mp hclient
  have hf := clientCalls_state_frame resp.calls (atOnPaint s)
  obtain ⟨l, hl, hl'⟩ := hf.log_eq
  have hsched : ∀ e ∈ l, e.isScroll = false ∧ e.isOnPaint = false := by
    intro e he
    rw [hl' e he]
    exact ⟨rfl, rfl⟩
  cases hu : clientCalls (atOnPaint s) resp.calls with
  | fault u =>
    rw [hu] at hl
    exact ⟨l, by simp [DoPaint, hpending, hc, hu, Outcome.state] at hl ⊢; exact hl, hsched⟩
  | ok u =>
    rw [hu] at hl
    simp only [Outcome.state] at hl
    by_cases hp : resp.painted = true
    · refine ⟨l ++ [Effect.Flush u.flush_pending_], ?_, ?_⟩
      · simp only [DoPaint, hpending, hc, hu, hp, if_true, flushAfterPaint]
        split_ifs <;> simp [Outcome.state, hl, List.append_assoc]
      · intro e he
        rcases List.mem_append.mp he with h | h
        · exact hsched e h
        · rw [List.mem_singleton.mp h]
          exact ⟨rfl, rfl⟩
    · exact ⟨l, by simp [DoPaint, hpending, hc, hu, hp, Outcome.state, hl], hsched⟩

/-- C11. Completion handlers. When its assertion holds (`flush_pending_` is set),
`OnFlushComplete` clears `flush_pending_` and touches nothing else, then, if the aggregator
reports a pending update, runs `DoPaint` in exactly that state (nothing was scheduled in
between), and otherwise returns that state: the log, the outstanding callbacks and the
aggregator are unchanged. `OnManualCallbackComplete` does the same with
`manual_callback_pending_`. -/
theorem C11_completion_handlers (s : PaintManager X) (resp : PaintResponse) :
    (s.flush_pending_ = true →
      (X.HasPendingUpdate s.aggregator_ = true →
        OnFlushComplete s resp = DoPaint { s with flush_pending_ := false } resp) ∧
      (X.HasPendingUpdate s.aggregator_ = false →
        OnFlushComplete s resp = .ok { s with flush_pending_ := false })) ∧
    (s.manual_callback_pending_ = true →
      (X.HasPendingUpdate s.aggregator_ = true →
        OnManualCallbackComplete s resp =
          DoPaint { s with manual_callback_pending_ := false } resp) ∧
      (X.HasPendingUpdate s.aggregator_ = false →
        OnManualCallbackComplete s resp = .ok { s with manual_callback_pending_ := false })) := by
  refine ⟨fun hf => ⟨fun hp => ?_, fun hp => ?_⟩, fun hm => ⟨fun hp => ?_, fun hp => ?_⟩⟩
  · simp [OnFlushComplete, hf, hp]
  · simp [OnFlushComplete, hf, hp]
  · simp [OnManualCallbackComplete, hm, hp]
  · simp [OnManualCallbackComplete, hm, hp]

/-- Witness of C11: the flush completion of the manager with a wake-up and a flush outstanding
(damage is pending: it paints), and the wake-up of a manager whose damage was already painted
(nothing pending: only the flag changes). -/
theorem C11_completion_handlers_witness :
    OnFlushComplete afterReentrantCycle respNothing =
      DoPaint { afterReentrantCycle with flush_pending_ := false } respNothing ∧
    OnManualCallbackComplete drained respNothing =
      .ok { drained with manual_callback_pending_ := false } :=
  ⟨((C11_completion_handlers afterReentrantCycle respNothing).1 (by decide)).1 (by decide),
   ((C11_completion_handlers drained respNothing).2 (by decide)).2 (by decide)⟩

/-- C12. Scroll before paint. In a paint cycle whose snapshot has a scroll, the log grows by
the call `Scroll(scroll_rect, scroll_delta)` of the snapshot, directly followed by the call of
`OnPaint`, and no other `Scroll` follows; in a cycle whose snapshot has no scroll the log grows
by the call of `OnPaint` and no `Scroll` at all. -/
theorem C12_scroll_before_paint (s : PaintManager X) (resp : PaintResponse)
    (hpending : X.HasPendingUpdate s.aggregator_ = true) (hclient : s.client_.isSome = true) :
    ((X.GetPendingUpdate s.aggregator_).has_scroll = true →
      ∃ tail, (DoPaint s resp).state.log = s.log ++
          [Effect.Scroll (X.GetPendingUpdate s.aggregator_).scroll_rect
            (X.GetPendingUpdate s.aggregator_).scroll_delta,
           Effect.OnPaint (X.GetPendingUpdate s.aggregator_).paint_rects
            (X.GetPendingUpdate s.aggregator_).paint_bounds] ++ tail ∧
        ∀ e ∈ tail, e.isScroll = false ∧ e.isOnPaint = false) ∧
    ((X.GetPendingUpdate s.aggregator_).has_scroll = false →
      ∃ tail, (DoPaint s resp).state.log = s.log ++
          [Effect.OnPaint (X.GetPendingUpdate s.aggregator_).paint_rects
            (X.GetPendingUpdate s.aggregator_).paint_bounds] ++ tail ∧
        ∀ e ∈ tail, e.isScroll = false ∧ e.isOnPaint = false) := by
  obtain ⟨tail, h1, h2⟩ := DoPaint_log s resp hpending hclient
  constructor
  · intro hs
    exact ⟨tail, by rw [h1]; simp [atOnPaint, scrollEffects, hs], h2⟩
  · intro hs
    exact ⟨tail, by rw [h1]; simp [atOnPaint, scrollEffects, hs], h2⟩

/-- Witness of C12: the spec's scenario. On a 100x100 surface (0,0,10,10) is invalidated, then
the clip (0,0,100,100) is scrolled by (5,0); in the paint cycle the device is scrolled first and
the client is then asked to paint the rectangle moved to (5,0,10,10). -/
theorem C12_scroll_before_paint_witness :
    (∃ tail, (DoPaint wokenWithScroll respPaintOk).state.log = wokenWithScroll.log ++
        [Effect.Scroll (specX.GetPendingUpdate wokenWithScroll.aggregator_).scroll_rect
          (specX.GetPendingUpdate wokenWithScroll.aggregator_).scroll_delta,
         Effect.OnPaint (specX.GetPendingUpdate wokenWithScroll.aggregator_).paint_rects
          (specX.GetPendingUpdate wokenWithScroll.aggregator_).paint_bounds] ++ tail ∧
      ∀ e ∈ tail, e.isScroll = false ∧ e.isOnPaint = false) ∧
    specX.GetPendingUpdate wokenWithScroll.aggregator_ =
      ⟨true, ⟨5, 0⟩, ⟨0, 0, 100, 100⟩, [⟨5, 0, 10, 10⟩], ⟨5, 0, 10, 10⟩⟩ :=
  ⟨(C12_scroll_before_paint wokenWithScroll respPaintOk (by decide) (by decide)).1 (by decide),
   by decide⟩

/-- C13. Bound-surface precondition: each of `Invalidate`, `InvalidateRect` and `ScrollRect`
is stopped by its assertion exactly when the device is null; it then stops in the state it was
called in (nothing scheduled, nothing recorded in the aggregator); with a device each of the
three returns. -/
theorem C13_bound_surface_precondition (s : PaintManager X) (rect clip_rect : Rect)
    (amount : Point) :
    ((Invalidate s).isOk = false ↔ s.device_.is_null = true) ∧
    ((InvalidateRect s rect).isOk = false ↔ s.device_.is_null = true) ∧
    ((ScrollRect s clip_rect amount).isOk = false ↔ s.device_.is_null = true) ∧
    (s.device_.is_null = true →
      Invalidate s = .fault s ∧ InvalidateRect s rect = .fault s ∧
        ScrollRect s clip_rect amount = .fault s) ∧
    (s.device_.is_null = false →
      (Invalidate s).isOk = true ∧ (InvalidateRect s rect).isOk = true ∧
        (ScrollRect s clip_rect amount).isOk = true) := by
  cases hdev : s.device_.is_null with
  | true =>
    simp [Invalidate, InvalidateRect, ScrollRect, hdev, Outcome.isOk]
  | false =>
    have h1 := Invalidate_ok s hdev
    have h3 := ScrollRect_ok s clip_rect amount hdev
    have h2 : (InvalidateRect s rect).isOk = true := by
      by_cases hE : X.IsEmpty (X.Intersect rect (Rect.ofSize s.device_.size)) = true
      · rw [InvalidateRect_ok_empty s rect hdev hE]
        rfl
      · rw [InvalidateRect_ok_clipped s rect hdev (by simpa using hE)]
        rfl
    have h1' : (Invalidate s).isOk = true := by rw [h1]; rfl
    have h3' : (ScrollRect s clip_rect amount).isOk = true := by rw [h3]; rfl
    simp [h1', h2, h3']

/-- Witness of C13: a manager that was initialized and never sized (no device), and the idle
100x100 manager. -/
theorem C13_bound_surface_precondition_witness :
    (Invalidate started = .fault started ∧
      InvalidateRect started ⟨0, 0, 10, 10⟩ = .fault started ∧
      ScrollRect started ⟨0, 0, 100, 100⟩ ⟨5, 0⟩ = .fault started) ∧
    ((Invalidate idle).isOk = true ∧ (InvalidateRect idle ⟨0, 0, 10, 10⟩).isOk = true ∧
      (ScrollRect idle ⟨0, 0, 100, 100⟩ ⟨5, 0⟩).isOk = true) :=
  ⟨(C13_bound_surface_precondition started ⟨0, 0, 10, 10⟩ ⟨0, 0, 100, 100⟩ ⟨5, 0⟩).2.2.2.1
      (by decide),
   (C13_bound_surface_precondition idle ⟨0, 0, 10, 10⟩ ⟨0, 0, 100, 100⟩ ⟨5, 0⟩).2.2.2.2
      (by decide)⟩

/-- C14 (the claim as stated fails). A default-constructed manager is initialized with a NULL
instance and a NULL client; the second `Initialize` then passes the assertion, returns and
replaces the configuration. -/
theorem C14_second_initialize_succeeds :
    (Initialize (PaintManager.new specX false false) none none false).isOk = true ∧
    (Initialize (Initialize (PaintManager.new specX false false) none none false).state
      (some 1) (some 2) true).isOk = true ∧
    (Initialize (Initialize (PaintManager.new specX false false) none none false).state
      (some 1) (some 2) true).state.instance_ = some 1 ∧
    (Initialize (Initialize (PaintManager.new specX false false) none none false).state
      (some 1) (some 2) true).state.client_ = some 2 ∧
    (Initialize (Initialize (PaintManager.new specX false false) none none false).state
      (some 1) (some 2) true).state.is_always_opaque_ = true := by
  decide

/-- C14 (amended). The first `Initialize` on a default-constructed manager returns and stores
its three arguments. After an `Initialize` that returned and was given a non-NULL instance or a
non-NULL client, and on a manager built by the three-argument constructor, every further
`Initialize` is stopped by the assertion and leaves the manager, with `instance_`, `client_`
and `is_always_opaque_` as first configured, untouched. -/
theorem C14_one_time_bind (manual flush : Bool) (s : PaintManager X)
    (inst1 client1 inst2 client2 : Option Nat) (o1 o2 : Bool) :
    Initialize (PaintManager.new X manual flush) inst1 client1 o1 =
      .ok { PaintManager.new X manual flush with
        instance_ := inst1, client_ := client1, is_always_opaque_ := o1 } ∧
    (inst1.isSome = true ∨ client1.isSome = true →
      ∀ s1, Initialize s inst1 client1 o1 = .ok s1 →
        s1.instance_ = inst1 ∧ s1.client_ = client1 ∧ s1.is_always_opaque_ = o1 ∧
          Initialize s1 inst2 client2 o2 = .fault s1) ∧
    (∀ s1, PaintManager.new3 X manual flush inst1 client1 o1 = .ok s1 →
      s1.instance_ = inst1 ∧ s1.client_ = client1 ∧ s1.is_always_opaque_ = o1 ∧
        Initialize s1 inst2 client2 o2 = .fault s1) := by
  refine ⟨rfl, ?_, ?_⟩
  · intro hne s1 h1
    unfold Initialize at h1
    split_ifs at h1 with hs
    cases h1
    refine ⟨rfl, rfl, rfl, ?_⟩
    rcases hne with h | h
    · obtain ⟨i, rfl⟩ := Option.isSome_iff_exists.mp h
      simp [Initialize]
    · obtain ⟨c, rfl⟩ := Option.isSome_iff_exists.mp h
      simp [Initialize]
  · intro s1 h1
    unfold PaintManager.new3 at h1
    split_ifs at h1 with hc
    cases h1
    refine ⟨rfl, rfl, rfl, ?_⟩
    obtain ⟨c, rfl⟩ := Option.isSome_iff_exists.mp hc
    simp [Initialize]

/-- Witness of C14 (amended): `Initialize(1, 2, false)` on a default-constructed manager, then
`Initialize(3, 4, true)`; and the same second call on a manager built by the three-argument
constructor. -/
theorem C14_one_time_bind_witness :
    Initialize started (some 3) (some 4) true = .fault started ∧
    started.instance_ = some 1 ∧ started.client_ = some 2 ∧
    started.is_always_opaque_ = false ∧
    (∀ s1, PaintManager.new3 specX true true (some 1) (some 2) false = .ok s1 →
      Initialize s1 (some 3) (some 4) true = .fault s1) :=
  match (C14_one_time_bind true true (PaintManager.new specX true true)
      (some 1) (some 2) (some 3) (some 4) false true) with
  | ⟨_, h2, h3⟩ =>
    ⟨(h2 (Or.inl rfl) started rfl).2.2.2, (h2 (Or.inl rfl) started rfl).1,
     (h2 (Or.inl rfl) started rfl).2.1, (h2 (Or.inl rfl) started rfl).2.2.1,
     fun s1 h => (h3 s1 h).2.2.2⟩

theorem EnsureCallbackPending_manual (s : PaintManager X) :
    (EnsureCallbackPending s).manual_callback_pending_ =
      (s.manual_callback_pending_ || !s.flush_pending_) := by
  by_cases hf : s.flush_pending_ = true <;> by_cases hm : s.manual_callback_pending_ = true <;>
    simp [EnsureCallbackPending, hf, hm]

/-- The paint cycle once the client's damage calls have returned. -/
theorem DoPaint_eq (s u : PaintManager X) (resp : PaintResponse)
    (hpending : X.HasPendingUpdate s.aggregator_ = true) (hclient : s.client_.isSome = true)
    (hu : clientCalls (atOnPaint s) resp.calls = .ok u) :
    DoPaint s resp =
      if resp.painted = true then flushAfterPaint u resp.flush_result else .ok u := by
  obtain ⟨c, hc⟩ := Option.isSome_iff_exists.mp hclient
  simp only [DoPaint, hpending, hc, hu, if_true]

/-- The manual flag after a damage call on a manager with a device. -/
theorem applyDamage_manual (s : PaintManager X) (d : Damage)
    (hdev : s.device_.is_null = false) :
    (applyDamage s d).state.manual_callback_pending_ =
      (s.manual_callback_pending_ || (!s.flush_pending_ && Damage.ensures X s.device_ d)) := by
  cases d with
  | Invalidate =>
    simp only [applyDamage, Invalidate_ok s hdev, Outcome.state, Damage.ensures]
    simp [EnsureCallbackPending_manual]
  | InvalidateRect rect =>
    by_cases hE : X.IsEmpty (X.Intersect rect (Rect.ofSize s.device_.size)) = true
    · simp [applyDamage, InvalidateRect_ok_empty s rect hdev hE, Outcome.state,
        Damage.ensures, hE]
    · have hE' : X.IsEmpty (X.Intersect rect (Rect.ofSize s.device_.size)) = false := by
        simpa using hE
      simp only [applyDamage, InvalidateRect_ok_clipped s rect hdev hE', Outcome.state,
        Damage.ensures, hE']
      simp [EnsureCallbackPending_manual]
  | ScrollRect clip_rect amount =>
    simp only [applyDamage, ScrollRect_ok s clip_rect amount hdev, Outcome.state,
      Damage.ensures]
    simp [EnsureCallbackPending_manual]

/-- The manual flag after the client's damage calls on a manager with a device. -/
theorem clientCalls_manual (ds : List Damage) (s : PaintManager X)
    (hdev : s.device_.is_null = false) :
    (clientCalls s ds).state.manual_callback_pending_ =
      (s.manual_callback_pending_ ||
        (!s.flush_pending_ && ds.any (Damage.ensures X s.device_))) := by
  induction ds generalizing s with
  | nil => simp [clientCalls, Outcome.state]
  | cons d ds ih =>
    obtain ⟨u, hu, hfu, -⟩ := applyDamage_ok s d hdev
    have hm := applyDamage_manual s d hdev
    rw [hu] at hm
    simp only [Outcome.state] at hm
    have hdev' : u.device_.is_null = false := by rw [hfu.device_eq]; exact hdev
    simp only [clientCalls, hu, ih u hdev', hm, hfu.flush_eq, hfu.device_eq, List.any_cons]
    cases s.manual_callback_pending_ <;> cases s.flush_pending_ <;>
      cases Damage.ensures X s.device_ d <;> simp

/-- C15 (the claim as stated fails). On the 100x100 manager with only its manual wake-up
pending, the wake-up is delivered and the client invalidates from inside `OnPaint` and reports
that nothing was painted: the handler returns with a manual wake-up pending again and no flush
pending. -/
theorem C15_wakeup_pending_after_wakeup :
    sized.manual_callback_pending_ = true ∧ sized.flush_pending_ = false ∧
    (deliver sized 0 respDamageNoPaint).map
        (fun o => (o.isOk, o.state.manual_callback_pending_, o.state.flush_pending_,
          o.state.pending_callbacks)) =
      some (true, true, false, [⟨CallbackKind.OnManualCallbackComplete, 1⟩]) := by
  decide

/-- C15 (amended). From a state in which only a manual wake-up is pending
(`manual_callback_pending_` true, `flush_pending_` false), with a device and a client, and a
flush that answers ok or would-block, `OnManualCallbackComplete` returns. On return
`flush_pending_` is true exactly when a paint cycle ran, the client painted and the flush
answered would-block; `manual_callback_pending_` is true exactly when a paint cycle ran and the
client made, from inside `OnPaint`, a damage call that reached `EnsureCallbackPending`. So the
handler ends in FLUSH_PENDING or IDLE when the client raises no such damage. -/
theorem C15_wakeup_row (s : PaintManager X) (resp : PaintResponse)
    (hmanual : s.manual_callback_pending_ = true) (hflush : s.flush_pending_ = false)
    (hdev : s.device_.is_null = false) (hclient : s.client_.isSome = true)
    (hresult : resp.flush_result = FlushResult.PP_OK ∨
      resp.flush_result = FlushResult.PP_ERROR_WOULDBLOCK) :
    ∃ t, OnManualCallbackComplete s resp = .ok t ∧
      t.flush_pending_ = (X.HasPendingUpdate s.aggregator_ && resp.painted &&
        decide (resp.flush_result = FlushResult.PP_ERROR_WOULDBLOCK)) ∧
      t.manual_callback_pending_ = (X.HasPendingUpdate s.aggregator_ &&
        resp.calls.any (Damage.ensures X s.device_)) ∧
      (resp.calls.any (Damage.ensures X s.device_) = false →
        t.manual_callback_pending_ = false) := by
  obtain ⟨c, hc⟩ := Option.isSome_iff_exists.mp hclient
  by_cases hp : X.HasPendingUpdate s.aggregator_ = true
  · have hO : OnManualCallbackComplete s resp =
        DoPaint { s with manual_callback_pending_ := false } resp := by
      simp [OnManualCallbackComplete, hmanual, hp]
    obtain ⟨u, hu, hfu, -⟩ :=
      atOnPaint_clientCalls { s with manual_callback_pending_ := false } resp.calls hdev
    have hm := clientCalls_manual resp.calls
      (atOnPaint { s with manual_callback_pending_ := false }) hdev
    rw [hu] at hm
    simp only [Outcome.state, atOnPaint, hflush, Bool.false_or, Bool.not_false,
      Bool.true_and] at hm
    have hf : u.flush_pending_ = false := by rw [hfu.flush_eq]; exact hflush
    have hD := DoPaint_eq { s with manual_callback_pending_ := false } u resp hp hclient hu
    rw [hO, hD]
    by_cases hpainted : resp.painted = true
    · rcases hresult with h | h
      · rw [if_pos hpainted, h, flushAfterPaint_ok]
        exact ⟨_, rfl, by simp [hf, hp, hpainted], by simp [hm, hp], fun ha => by simp [hm, ha]⟩
      · rw [if_pos hpainted, h, flushAfterPaint_wouldblock]
        exact ⟨_, rfl, by simp [hp, hpainted], by simp [hm, hp], fun ha => by simp [hm, ha]⟩
    · rw [if_neg hpainted]
      exact ⟨u, rfl, by simp [hf, hpainted], by simp [hm, hp], fun ha => by simp [hm, ha]⟩
  · have hp' : X.HasPendingUpdate s.aggregator_ = false := by simpa using hp
    exact ⟨{ s with manual_callback_pending_ := false },
      by simp [OnManualCallbackComplete, hmanual, hp'], by simp [hflush, hp'], by simp [hp'],
      fun _ => rfl⟩

/-- Witness of C15 (amended): the wake-up of the 100x100 manager is delivered; the client
paints without raising damage and the flush answers would-block: FLUSH_PENDING. -/
theorem C15_wakeup_row_witness :
    ∃ t, OnManualCallbackComplete sized respPaintWouldBlock = .ok t ∧
      t.flush_pending_ = true ∧ t.manual_callback_pending_ = false :=
  match C15_wakeup_row sized respPaintWouldBlock (by decide) (by decide) (by decide)
      (by decide) (Or.inr (by decide)) with
  | ⟨t, h1, h2, _, h4⟩ => ⟨t, h1, by rw [h2]; decide, h4 (by decide)⟩

theorem SetSize_afterResize (s : PaintManager X) (new_size : Size)
    (h : new_size ≠ s.device_.size) (hinst : s.instance_.isSome = true) :
    SetSize s new_size true = .ok (afterResize s new_size) := by
  rw [SetSize_resized s new_size h hinst, Invalidate_resized]
  rfl

/-- The delivery of the wake-up scheduled by a successful `SetSize`. -/
theorem deliver_afterResize (s : PaintManager X) (new_size : Size) (resp : PaintResponse)
    (hpending : X.HasPendingUpdate (afterResize s new_size).aggregator_ = true) :
    deliver (afterResize s new_size) s.pending_callbacks.length resp =
      some (DoPaint { afterResize s new_size with
        pending_callbacks := s.pending_callbacks
        manual_callback_pending_ := false } resp) := by
  have hget : (afterResize s new_size).pending_callbacks[s.pending_callbacks.length]? =
      some ⟨CallbackKind.OnManualCallbackComplete, s.generation + 1⟩ := by
    simp [afterResize]
  have herase : (afterResize s new_size).pending_callbacks.eraseIdx s.pending_callbacks.length
      = s.pending_callbacks := by
    simp [afterResize, List.eraseIdx_append_of_length_le]
  have hgen : (afterResize s new_size).generation = s.generation + 1 := rfl
  have hman : (afterResize s new_size).manual_callback_pending_ = true := rfl
  simp only [deliver, hget, hgen, if_true, herase, OnManualCallbackComplete, hman, hpending]

/-- After a successful `SetSize` the callbacks that were outstanding before it belong to an
older generation. -/
theorem afterResize_stale (s : PaintManager X) (new_size : Size) (hwf : CallbacksWf s) :
    ∀ cb ∈ s.pending_callbacks, cb.generation ≠ (afterResize s new_size).generation := by
  intro cb hcb
  have := hwf cb hcb
  simp only [afterResize, resized]
  omega

/-- After a successful `SetSize` the only live callback is the wake-up it scheduled. -/
theorem afterResize_live (s : PaintManager X) (new_size : Size) (hwf : CallbacksWf s) :
    liveCallbacks (afterResize s new_size) = [manualCallback (afterResize s new_size)] := by
  have hnil : s.pending_callbacks.filter (fun cb => decide (cb.generation = s.generation + 1))
      = [] := by
    rw [List.filter_eq_nil_iff]
    intro cb hcb
    have := hwf cb hcb
    simp only [decide_eq_true_eq]
    omega
  simp [liveCallbacks, manualCallback, afterResize, resized, List.filter_append, hnil]

/-- After a successful `SetSize` the delivery of a callback that was outstanding before it only
removes the callback. -/
theorem afterResize_deliver_stale (s : PaintManager X) (new_size : Size) (hwf : CallbacksWf s)
    (i : Nat) (cb : Callback) (resp : PaintResponse) (hi : s.pending_callbacks[i]? = some cb) :
    deliver (afterResize s new_size) i resp =
      some (.ok { afterResize s new_size with
        pending_callbacks := (afterResize s new_size).pending_callbacks.eraseIdx i }) := by
  have hlt : i < s.pending_callbacks.length := (List.getElem?_eq_some.mp hi).1
  have hget : (s.pending_callbacks ++ [(⟨CallbackKind.OnManualCallbackComplete,
      s.generation + 1⟩ : Callback)])[i]? = some cb := by
    rw [List.getElem?_append_left hlt]
    exact hi
  have hgen : cb.generation ≠ s.generation + 1 := by
    have := hwf cb (List.mem_iff_getElem?.mpr ⟨i, hi⟩)
    omega
  simp [deliver, afterResize, resized, hget, hgen]

/-- C16 (the claim as stated fails). On the idle 100x100 manager the whole surface is scrolled
by (5,0), then the surface is resized to 50x50: the scroll is still in the aggregator, and the
next paint cycle calls `Scroll` with it on the new device before `OnPaint`. -/
theorem C16_scroll_survives_resize :
    (run idle scrolledThenResized).map
        (fun o => (o.isOk, o.state.device_.size, specX.GetPendingUpdate o.state.aggregator_)) =
      some (true, ⟨50, 50⟩,
        ⟨true, ⟨5, 0⟩, ⟨0, 0, 100, 100⟩, [⟨0, 0, 50, 50⟩], ⟨0, 0, 50, 50⟩⟩) ∧
    (run idle (scrolledThenResized ++ [Event.Deliver 1 respNothing])).map
        (fun o => (o.isOk, o.state.log.drop 5)) =
      some (true,
        [Effect.BindGraphicsDeviceContext ⟨false, ⟨50, 50⟩, false⟩,
         Effect.CancelAll,
         Effect.CallOnMainThread 0,
         Effect.Scroll ⟨0, 0, 100, 100⟩ ⟨5, 0⟩,
         Effect.OnPaint [⟨0, 0, 50, 50⟩] ⟨0, 0, 50, 50⟩]) := by
  decide

/-- C16 (amended). A size-changing `SetSize` whose device is allocated resets the scheduler and
not the aggregator. It resets both pending flags and cancels the callbacks (state `resized`)
and runs `Invalidate` there. On return `flush_pending_` is false and `manual_callback_pending_`
is true; the log has grown by the bind, the cancellation and exactly one zero-delay scheduling;
the outstanding callbacks are those from before the resize, all of an older generation, and
the one wake-up just scheduled, which is the only live one; the delivery of a callback from
before the resize only removes it. The aggregator is the one from before the resize with the
new full bounds invalidated in it. The next paint cycle, entered when the new wake-up is
delivered, applies to the new device the scroll this aggregator state holds, if any, and then
asks the client to paint its rectangles. -/
theorem C16_resize_keeps_aggregator (s : PaintManager X) (new_size : Size)
    (hne : new_size ≠ s.device_.size) (hinst : s.instance_.isSome = true)
    (hwf : CallbacksWf s) :
    (resized s new_size).manual_callback_pending_ = false ∧
    (resized s new_size).flush_pending_ = false ∧
    SetSize s new_size true = Invalidate (resized s new_size) ∧
    ∃ t, SetSize s new_size true = .ok t ∧
      t.flush_pending_ = false ∧ t.manual_callback_pending_ = true ∧
      t.device_ = ⟨false, new_size, s.is_always_opaque_⟩ ∧
      t.log = s.log ++ [Effect.BindGraphicsDeviceContext t.device_, Effect.CancelAll,
        Effect.CallOnMainThread 0] ∧
      scheduleCount t.log = scheduleCount s.log + 1 ∧
      t.pending_callbacks = s.pending_callbacks ++ [manualCallback t] ∧
      (∀ cb ∈ s.pending_callbacks, cb.generation ≠ t.generation) ∧
      liveCallbacks t = [manualCallback t] ∧
      (∀ i cb resp, s.pending_callbacks[i]? = some cb →
        deliver t i resp =
          some (.ok { t with pending_callbacks := t.pending_callbacks.eraseIdx i })) ∧
      t.aggregator_ = X.InvalidateRect s.aggregator_ (Rect.ofSize new_size) ∧
      (X.HasPendingUpdate (X.InvalidateRect s.aggregator_ (Rect.ofSize new_size)) = true →
        s.client_.isSome = true →
        ∀ resp, ∃ o tail, deliver t s.pending_callbacks.length resp = some o ∧
          o.state.log = t.log ++ scrollEffects (X.GetPendingUpdate t.aggregator_) ++
            [Effect.OnPaint (X.GetPendingUpdate t.aggregator_).paint_rects
              (X.GetPendingUpdate t.aggregator_).paint_bounds] ++ tail ∧
          ∀ e ∈ tail, e.isScroll = false ∧ e.isOnPaint = false) := by
  refine ⟨rfl, rfl, SetSize_resized s new_size hne hinst, afterResize s new_size,
    SetSize_afterResize s new_size hne hinst, rfl, rfl, rfl, rfl, ?_, rfl,
    afterResize_stale s new_size hwf, afterResize_live s new_size hwf,
    fun i cb resp hi => afterResize_deliver_stale s new_size hwf i cb resp hi, rfl, ?_⟩
  · simp [afterResize, scheduleCount, Effect.isSchedule]
  · intro hpending hclient resp
    obtain ⟨tail, h1, h2⟩ := DoPaint_log { afterResize s new_size with
      pending_callbacks := s.pending_callbacks
      manual_callback_pending_ := false } resp hpending hclient
    exact ⟨_, tail, deliver_afterResize s new_size resp hpending, h1, h2⟩

/-- Witness of C16 (amended): the 100x100 manager of the scroll scenario, with a scroll of the
whole surface by (5,0) pending and its wake-up outstanding, is resized to 50x50. The old
wake-up is cancelled, one new wake-up is live, the scroll is still in the aggregator, and the
delivery of the new wake-up scrolls the new device before the client paints. -/
theorem C16_resize_keeps_aggregator_witness :
    ∃ t, SetSize scrollPending ⟨50, 50⟩ true = .ok t ∧
      t.flush_pending_ = false ∧ t.manual_callback_pending_ = true ∧
      scheduleCount t.log = scheduleCount scrollPending.log + 1 ∧
      t.pending_callbacks = scrollPending.pending_callbacks ++ [manualCallback t] ∧
      liveCallbacks t = [manualCallback t] ∧
      deliver t 0 respPaintOk =
        some (.ok { t with pending_callbacks := t.pending_callbacks.eraseIdx 0 }) ∧
      t.aggregator_ = specX.InvalidateRect scrollPending.aggregator_ (Rect.ofSize ⟨50, 50⟩) ∧
      scrollEffects (specX.GetPendingUpdate
          (specX.InvalidateRect scrollPending.aggregator_ (Rect.ofSize ⟨50, 50⟩))) =
        [Effect.Scroll ⟨0, 0, 100, 100⟩ ⟨5, 0⟩] ∧
      ∃ o tail, deliver t scrollPending.pending_callbacks.length respNothing = some o ∧
        o.state.log = t.log ++ scrollEffects (specX.GetPendingUpdate t.aggregator_) ++
          [Effect.OnPaint (specX.GetPendingUpdate t.aggregator_).paint_rects
            (specX.GetPendingUpdate t.aggregator_).paint_bounds] ++ tail ∧
        ∀ e ∈ tail, e.isScroll = false ∧ e.isOnPaint = false :=
  match C16_resize_keeps_aggregator scrollPending ⟨50, 50⟩ (by decide) (by decide)
      (by unfold CallbacksWf; decide) with
  | ⟨_, _, _, t, h1, h2, h3, _, _, h6, h7, _, h9, h10, h11, h12⟩ =>
    ⟨t, h1, h2, h3, h6, h7, h9,
      h10 0 ⟨CallbackKind.OnManualCallbackComplete, 1⟩ respPaintOk (by decide),
      h11, by decide, h12 (by decide) (by decide) respNothing⟩

/-- A property kept by every top-level call that returns holds after every run. -/
theorem run_preserves (P : PaintManager X → Prop)
    (hstep : ∀ s t e, P s → step s e = some (.ok t) → P t) (evs : List Event) :
    ∀ s t, P s → run s evs = some (.ok t) → P t := by
  induction evs with
  | nil =>
    intro s t hs ht
    simp only [run, Option.some.injEq, Outcome.ok.injEq] at ht
    subst ht
    exact hs
  | cons e es ih =>
    intro s t hs ht
    simp only [run] at ht
    cases he : step s e with
    | none => simp [he] at ht
    | some o =>
      cases o with
      | ok u =>
        rw [he] at ht
        exact ih u t (hstep s u e hs he) ht
      | fault u =>
        rw [he] at ht
        simp at ht

theorem count_eraseIdx_self {l : List Callback} {i : Nat} {a : Callback}
    (h : l[i]? = some a) : (l.eraseIdx i).count a = l.count a - 1 := by
  induction l generalizing i with
  | nil => simp at h
  | cons b l ih =>
    cases i with
    | zero =>
      simp only [List.getElem?_cons_zero, Option.some.injEq] at h
      subst h
      simp
    | succ i =>
      simp only [List.getElem?_cons_succ] at h
      have hpos : 0 < l.count a :=
        List.count_pos_iff.mpr (List.mem_iff_getElem?.mpr ⟨i, h⟩)
      simp only [List.eraseIdx_cons_succ, List.count_cons, ih h]
      omega

theorem count_eraseIdx_ne {l : List Callback} {i : Nat} {a b : Callback}
    (h : l[i]? = some b) (hne : b ≠ a) : (l.eraseIdx i).count a = l.count a := by
  induction l generalizing i with
  | nil => simp at h
  | cons c l ih =>
    cases i with
    | zero =>
      simp only [List.getElem?_cons_zero, Option.some.injEq] at h
      subst h
      simp [List.count_cons, hne]
    | succ i =>
      simp only [List.getElem?_cons_succ] at h
      simp only [List.eraseIdx_cons_succ, List.count_cons, ih h]

theorem EnsureCallbackPending_counted (s : PaintManager X) (h : ManualCounted s) :
    ManualCounted (EnsureCallbackPending s) := by
  unfold EnsureCallbackPending
  split_ifs with hf hm
  · exact h
  · exact h
  · have h0 : s.pending_callbacks.count (manualCallback s) = 0 := by
      have := h
      simp only [ManualCounted, manualCount, hm] at this
      simpa using this
    simp only [ManualCounted, manualCount, manualCallback] at h0 ⊢
    simp [List.count_append, h0]

theorem applyDamage_counted (s t : PaintManager X) (d : Damage)
    (h : ManualCounted s ∧ CallbacksWf s) (ht : applyDamage s d = .ok t) :
    ManualCounted t ∧ CallbacksWf t := by
  have key : ManualCounted (EnsureCallbackPending s) ∧ CallbacksWf (EnsureCallbackPending s) :=
    ⟨EnsureCallbackPending_counted s h.1, EnsureCallbackPending_wf s h.2⟩
  by_cases hdev : s.device_.is_null = true
  · cases d <;> simp [applyDamage, Invalidate, InvalidateRect, ScrollRect, hdev] at ht
  · have hdev' : s.device_.is_null = false := by simpa using hdev
    cases d with
    | Invalidate =>
      simp only [applyDamage, Invalidate_ok s hdev', Outcome.ok.injEq] at ht
      subst ht
      exact key
    | InvalidateRect rect =>
      simp only [applyDamage] at ht
      by_cases hE : X.IsEmpty (X.Intersect rect (Rect.ofSize s.device_.size)) = true
      · rw [InvalidateRect_ok_empty s rect hdev' hE] at ht
        cases ht
        exact h
      · rw [InvalidateRect_ok_clipped s rect hdev' (by simpa using hE)] at ht
        cases ht
        exact key
    | ScrollRect clip_rect amount =>
      simp only [applyDamage, ScrollRect_ok s clip_rect amount hdev', Outcome.ok.injEq] at ht
      subst ht
      exact key

theorem clientCalls_counted (ds : List Damage) (s t : PaintManager X)
    (h : ManualCounted s ∧ CallbacksWf s) (ht : clientCalls s ds = .ok t) :
    ManualCounted t ∧ CallbacksWf t := by
  induction ds generalizing s with
  | nil =>
    simp only [clientCalls] at ht
    cases ht
    exact h
  | cons d ds ih =>
    simp only [clientCalls] at ht
    cases hd : applyDamage s d with
    | ok u =>
      rw [hd] at ht
      exact ih u (applyDamage_counted s u d h hd) ht
    | fault u =>
      rw [hd] at ht
      cases ht

theorem flushAfterPaint_counted (s t : PaintManager X) (r : FlushResult)
    (h : ManualCounted s ∧ CallbacksWf s) (ht : flushAfterPaint s r = .ok t) :
    ManualCounted t ∧ CallbacksWf t := by
  cases r with
  | PP_OK =>
    rw [flushAfterPaint_ok] at ht
    cases ht
    exact h
  | PP_ERROR_WOULDBLOCK =>
    rw [flushAfterPaint_wouldblock] at ht
    cases ht
    refine ⟨?_, ?_⟩
    · have := h.1
      simp only [ManualCounted, manualCount, manualCallback, flushCallback] at this ⊢
      simpa [List.count_append] using this
    · intro cb hcb
      rcases List.mem_append.mp hcb with h' | h'
      · exact h.2 cb h'
      · rw [List.mem_singleton.mp h']
        exact Nat.le_refl _
  | PP_ERROR_INPROGRESS => simp [flushAfterPaint] at ht
  | other_error => simp [flushAfterPaint] at ht

theorem DoPaint_counted (s t : PaintManager X) (resp : PaintResponse)
    (h : ManualCounted s ∧ CallbacksWf s) (ht : DoPaint s resp = .ok t) :
    ManualCounted t ∧ CallbacksWf t := by
  have hat : ManualCounted (atOnPaint s) ∧ CallbacksWf (atOnPaint s) := h
  by_cases hp : X.HasPendingUpdate s.aggregator_ = true
  · cases hc : s.client_ with
    | none => simp [DoPaint, hp, hc] at ht
    | some c =>
      cases hu : clientCalls (atOnPaint s) resp.calls with
      | fault u => simp [DoPaint, hp, hc, hu] at ht
      | ok u =>
        have hus := clientCalls_counted resp.calls (atOnPaint s) u hat hu
        rw [DoPaint_eq s u resp hp (by simp [hc]) hu] at ht
        by_cases hpainted : resp.painted = true
        · rw [if_pos hpainted] at ht
          exact flushAfterPaint_counted u t resp.flush_result hus ht
        · rw [if_neg hpainted] at ht
          cases ht
          exact hus
  · simp [DoPaint, hp] at ht

/-- The delivery of an outstanding callback keeps the count of the manual flag, and finds the
flag set when the callback is a live manual wake-up. -/
theorem deliver_counted (s t : PaintManager X) (i : Nat) (resp : PaintResponse)
    (h : ManualInv s) (ht : deliver s i resp = some (.ok t)) : ManualInv t := by
  rcases h with ⟨-, hnil, -⟩ | ⟨hcount, hwf⟩
  · simp [deliver, hnil] at ht
  · cases hi : s.pending_callbacks[i]? with
    | none => simp [deliver, hi] at ht
    | some cb =>
      have hwf' := CallbacksWf_eraseIdx s i hwf
      by_cases hgen : cb.generation = s.generation
      · cases hk : cb.kind with
        | OnManualCallbackComplete =>
          have hcb : cb = manualCallback s := by
            cases cb
            simp only [manualCallback] at hk hgen ⊢
            rw [hk, hgen]
          by_cases hm : s.manual_callback_pending_ = true
          · have hc2 : ManualCounted { s with
                pending_callbacks := s.pending_callbacks.eraseIdx i
                manual_callback_pending_ := false } := by
              have h1 := hcount
              simp only [ManualCounted, manualCount, hm, if_true] at h1
              simp only [ManualCounted, manualCount]
              rw [show manualCallback ({ s with
                pending_callbacks := s.pending_callbacks.eraseIdx i
                manual_callback_pending_ := false } : PaintManager X) = manualCallback s from rfl]
              rw [count_eraseIdx_self (hcb ▸ hi), h1]
              rfl
            by_cases hp : X.HasPendingUpdate s.aggregator_ = true
            · simp only [deliver, hi, hgen, hk, OnManualCallbackComplete, hm, hp, if_true,
                Option.some.injEq] at ht
              exact Or.inr (DoPaint_counted _ t resp ⟨hc2, hwf'⟩ ht)
            · simp [deliver, hi, hgen, hk, OnManualCallbackComplete, hm, hp] at ht
              subst ht
              exact Or.inr ⟨hc2, hwf'⟩
          · simp [deliver, hi, hgen, hk, OnManualCallbackComplete, hm] at ht
        | OnFlushComplete =>
          have hne : cb ≠ manualCallback s := by
            intro heq
            rw [heq] at hk
            simp [manualCallback] at hk
          have hc2 : ManualCounted { s with
              pending_callbacks := s.pending_callbacks.eraseIdx i
              flush_pending_ := false } := by
            have h1 := hcount
            simp only [ManualCounted, manualCount] at h1 ⊢
            rw [show manualCallback ({ s with
              pending_callbacks := s.pending_callbacks.eraseIdx i
              flush_pending_ := false } : PaintManager X) = manualCallback s from rfl]
            rw [count_eraseIdx_ne hi hne]
            exact h1
          by_cases hm : s.flush_pending_ = true
          · by_cases hp : X.HasPendingUpdate s.aggregator_ = true
            · simp only [deliver, hi, hgen, hk, OnFlushComplete, hm, hp, if_true,
                Option.some.injEq] at ht
              exact Or.inr (DoPaint_counted _ t resp ⟨hc2, hwf'⟩ ht)
            · simp [deliver, hi, hgen, hk, OnFlushComplete, hm, hp] at ht
              subst ht
              exact Or.inr ⟨hc2, hwf'⟩
          · simp [deliver, hi, hgen, hk, OnFlushComplete, hm] at ht
      · have hne : cb ≠ manualCallback s := by
          intro heq
          exact hgen (by rw [heq]; rfl)
        simp only [deliver, hi, hgen, if_false, Option.some.injEq, Outcome.ok.injEq] at ht
        subst ht
        refine Or.inr ⟨?_, hwf'⟩
        have h1 := hcount
        simp only [ManualCounted, manualCount] at h1 ⊢
        rw [show manualCallback ({ s with
          pending_callbacks := s.pending_callbacks.eraseIdx i } : PaintManager X) =
            manualCallback s from rfl]
        rw [count_eraseIdx_ne hi hne]
        exact h1

theorem SetSize_counted (s t : PaintManager X) (new_size : Size) (alloc_ok : Bool)
    (h : ManualInv s) (ht : SetSize s new_size alloc_ok = .ok t) : ManualInv t := by
  by_cases hsame : new_size = s.device_.size
  · rw [SetSize_same s new_size alloc_ok hsame] at ht
    cases ht
    exact h
  · cases alloc_ok with
    | false =>
      simp [SetSize, hsame, DeviceContext2D.create, DeviceContext2D.null] at ht
      subst ht
      rcases h with ⟨hlog, hnil, _⟩ | h
      · exact Or.inl ⟨hlog, hnil, rfl⟩
      · exact Or.inr h
    | true =>
      cases hinst : s.instance_ with
      | none => simp [SetSize, hsame, DeviceContext2D.create, hinst] at ht
      | some c =>
        rw [SetSize_afterResize s new_size hsame (by simp [hinst])] at ht
        cases ht
        have hwf : CallbacksWf s := by
          rcases h with ⟨_, hnil, _⟩ | ⟨_, hwf⟩
          · intro cb hcb
            rw [hnil] at hcb
            cases hcb
          · exact hwf
        have h0 : s.pending_callbacks.count
            (⟨CallbackKind.OnManualCallbackComplete, s.generation + 1⟩ : Callback) = 0 := by
          rw [List.count_eq_zero]
          intro hmem
          have := hwf _ hmem
          simp at this
        refine Or.inr ⟨?_, ?_⟩
        · simp only [ManualCounted, manualCount, manualCallback, afterResize, resized]
          simp [List.count_append, h0]
        · intro cb hcb
          simp only [afterResize, resized] at hcb ⊢
          rcases List.mem_append.mp hcb with h' | h'
          · exact Nat.le_succ_of_le (hwf cb h')
          · rw [List.mem_singleton.mp h']

/-- Every top-level call that returns keeps the invariant of the manual flag. -/
theorem step_counted (s t : PaintManager X) (e : Event) (h : ManualInv s)
    (ht : step s e = some (.ok t)) : ManualInv t := by
  cases e with
  | Initialize inst client o =>
    simp only [step, Initialize, Option.some.injEq] at ht
    split_ifs at ht
    cases ht
    exact h
  | SetSize new_size alloc_ok => exact SetSize_counted s t new_size alloc_ok h (Option.some.inj ht)
  | Deliver i resp => exact deliver_counted s t i resp h ht
  | Invalidate =>
    rcases h with ⟨-, -, hnull⟩ | h
    · simp [step, Invalidate, hnull] at ht
    · exact Or.inr (applyDamage_counted s t Damage.Invalidate h (Option.some.inj ht))
  | InvalidateRect rect =>
    rcases h with ⟨-, -, hnull⟩ | h
    · simp [step, InvalidateRect, hnull] at ht
    · exact Or.inr (applyDamage_counted s t (Damage.InvalidateRect rect) h (Option.some.inj ht))
  | ScrollRect clip_rect amount =>
    rcases h with ⟨-, -, hnull⟩ | h
    · simp [step, ScrollRect, hnull] at ht
    · exact Or.inr
        (applyDamage_counted s t (Damage.ScrollRect clip_rect amount) h (Option.some.inj ht))

/-- C17. The manual-wake-up flag counts the outstanding callbacks. In every state reached from
a freshly constructed manager by top-level calls that return (`Initialize`, `SetSize`, damage
calls, completion deliveries, with any damage the client raises inside `OnPaint`): once a
`SetSize` has bound a device, the number of manual callbacks that are scheduled, not yet
delivered and not cancelled is 1 if `manual_callback_pending_` is true and 0 otherwise; and
whenever such a callback is outstanding, `manual_callback_pending_` is true, so that its
delivery enters `OnManualCallbackComplete` with the assertion satisfied. -/
theorem C17_manual_flag_counts_callbacks (manual flush : Bool) (evs : List Event)
    (t : PaintManager X) (hrun : run (PaintManager.new X manual flush) evs = some (.ok t)) :
    ((∃ d, Effect.BindGraphicsDeviceContext d ∈ t.log) →
      manualCount t = if t.manual_callback_pending_ = true then 1 else 0) ∧
    (∀ i, t.pending_callbacks[i]? = some (manualCallback t) →
      t.manual_callback_pending_ = true ∧
      ∀ resp, deliver t i resp = some (OnManualCallbackComplete
        { t with pending_callbacks := t.pending_callbacks.eraseIdx i } resp)) := by
  have hinv : ManualInv t :=
    run_preserves ManualInv step_counted evs _ t (Or.inl ⟨rfl, rfl, rfl⟩) hrun
  constructor
  · rintro ⟨d, hd⟩
    rcases hinv with ⟨hlog, -, -⟩ | ⟨hcount, -⟩
    · rw [hlog] at hd
      cases hd
    · exact hcount
  · intro i hi
    refine ⟨?_, fun resp => by simp [deliver, hi, manualCallback]⟩
    rcases hinv with ⟨-, hnil, -⟩ | ⟨hcount, -⟩
    · rw [hnil] at hi
      simp at hi
    · by_contra hm
      exact absurd (List.mem_iff_getElem?.mpr ⟨i, hi⟩) (by
        have h1 := hcount
        simp only [ManualCounted, manualCount, hm, if_false] at h1
        exact List.count_eq_zero.mp (by simpa using h1))

/-- Witness of C17: a manager is constructed, initialized and sized to 100x100, and the client
invalidates during the first paint cycle; one manual wake-up is outstanding and the flag is
set. -/
theorem C17_manual_flag_counts_callbacks_witness :
    manualCount afterReentrantCycle =
      (if afterReentrantCycle.manual_callback_pending_ = true then 1 else 0) ∧
    afterReentrantCycle.manual_callback_pending_ = true :=
  match C17_manual_flag_counts_callbacks true true
      (Event.Initialize (some 1) (some 2) false :: reentrantCycle) afterReentrantCycle
      (by rfl) with
  | ⟨h1, h2⟩ => ⟨h1 ⟨⟨false, ⟨100, 100⟩, false⟩, by decide⟩, (h2 0 (by decide)).1⟩

theorem flushAfterPaint_device (s : PaintManager X) (r : FlushResult) :
    (flushAfterPaint s r).state.device_ = s.device_ := by
  cases r <;> simp [flushAfterPaint, Outcome.state]

/-- A paint cycle never changes the device, whether it returns or stops. -/
theorem DoPaint_device (s : PaintManager X) (resp : PaintResponse) :
    (DoPaint s resp).state.device_ = s.device_ := by
  by_cases hp : X.HasPendingUpdate s.aggregator_ = true
  · cases hc : s.client_ with
    | none => simp [DoPaint, hp, hc, Outcome.state, atOnPaint]
    | some c =>
      have hf := clientCalls_state_frame resp.calls (atOnPaint s)
      cases hu : clientCalls (atOnPaint s) resp.calls with
      | fault u =>
        rw [hu] at hf
        simp only [DoPaint, hp, hc, hu, if_true, Outcome.state]
        exact hf.device_eq
      | ok u =>
        rw [hu] at hf
        rw [DoPaint_eq s u resp hp (by simp [hc]) hu]
        split_ifs
        · rw [flushAfterPaint_device]
          exact hf.device_eq
        · exact hf.device_eq
  · simp [DoPaint, hp, Outcome.state]

theorem OnManualCallbackComplete_device (s : PaintManager X) (resp : PaintResponse) :
    (OnManualCallbackComplete s resp).state.device_ = s.device_ := by
  by_cases hm : s.manual_callback_pending_ = true
  · by_cases hp : X.HasPendingUpdate s.aggregator_ = true
    · simp only [OnManualCallbackComplete, hm, hp, if_true]
      exact DoPaint_device _ resp
    · simp [OnManualCallbackComplete, hm, hp, Outcome.state]
  · simp [OnManualCallbackComplete, hm, Outcome.state]

theorem OnFlushComplete_device (s : PaintManager X) (resp : PaintResponse) :
    (OnFlushComplete s resp).state.device_ = s.device_ := by
  by_cases hm : s.flush_pending_ = true
  · by_cases hp : X.HasPendingUpdate s.aggregator_ = true
    · simp only [OnFlushComplete, hm, hp, if_true]
      exact DoPaint_device _ resp
    · simp [OnFlushComplete, hm, hp, Outcome.state]
  · simp [OnFlushComplete, hm, Outcome.state]

/-- A delivery never changes the device. -/
theorem deliver_device (s : PaintManager X) (i : Nat) (resp : PaintResponse)
    (o : Outcome (PaintManager X)) (h : deliver s i resp = some o) :
    o.state.device_ = s.device_ := by
  cases hi : s.pending_callbacks[i]? with
  | none => simp [deliver, hi] at h
  | some cb =>
    by_cases hgen : cb.generation = s.generation
    · cases hk : cb.kind with
      | OnManualCallbackComplete =>
        simp only [deliver, hi, hgen, hk, if_true, Option.some.injEq] at h
        subst h
        exact OnManualCallbackComplete_device _ resp
      | OnFlushComplete =>
        simp only [deliver, hi, hgen, hk, if_true, Option.some.injEq] at h
        subst h
        exact OnFlushComplete_device _ resp
    · simp only [deliver, hi, hgen, if_false, Option.some.injEq] at h
      subst h
      rfl

/-- Without a device, no top-level call other than an allocating `SetSize` brings one. -/
theorem step_device_null (s : PaintManager X) (e : Event) (o : Outcome (PaintManager X))
    (hnull : s.device_.is_null = true) (he : e.allocates = false) (h : step s e = some o) :
    o.state.device_.is_null = true := by
  cases e with
  | Initialize inst client op =>
    simp only [step, Initialize, Option.some.injEq] at h
    subst h
    split_ifs <;> exact hnull
  | SetSize new_size alloc_ok =>
    simp only [Event.allocates] at he
    subst he
    simp only [step, Option.some.injEq] at h
    subst h
    by_cases hsame : new_size = s.device_.size
    · rw [SetSize_same s new_size false hsame]
      exact hnull
    · simp [SetSize, hsame, DeviceContext2D.create, DeviceContext2D.null, Outcome.state]
  | Deliver i resp =>
    rw [deliver_device s i resp o h]
    exact hnull
  | Invalidate =>
    simp [step, Invalidate, hnull] at h
    subst h
    exact hnull
  | InvalidateRect rect =>
    simp [step, InvalidateRect, hnull] at h
    subst h
    exact hnull
  | ScrollRect clip_rect amount =>
    simp [step, ScrollRect, hnull] at h
    subst h
    exact hnull

theorem run_device_null (evs : List Event) (s : PaintManager X) (o : Outcome (PaintManager X))
    (hnull : s.device_.is_null = true) (hevs : ∀ e ∈ evs, e.allocates = false)
    (h : run s evs = some o) : o.state.device_.is_null = true := by
  induction evs generalizing s with
  | nil =>
    simp only [run, Option.some.injEq] at h
    subst h
    exact hnull
  | cons e es ih =>
    have he := hevs e (List.mem_cons_self e es)
    simp only [run] at h
    cases hs : step s e with
    | none => simp [hs] at h
    | some u =>
      have hu := step_device_null s e u hnull he hs
      cases u with
      | ok v =>
        rw [hs] at h
        exact ih v hu (fun e' he' => hevs e' (List.mem_cons_of_mem e he')) h
      | fault v =>
        rw [hs] at h
        simp only [Option.some.injEq] at h
        subst h
        exact hu

/-- C19. Failed resize. A `SetSize` to a size other than the current one whose allocation
fails returns with the null device stored and everything else as it was (both flags, the
outstanding callbacks, the aggregator, and the log: nothing is scheduled). Without a device
every damage call is stopped by its assertion, in the state it was called in; and the device
stays null through every sequence of top-level calls in which no `SetSize` allocates. -/
theorem C19_failed_resize (s : PaintManager X) (new_size : Size)
    (hne : new_size ≠ s.device_.size) :
    SetSize s new_size false = .ok { s with device_ := DeviceContext2D.null } ∧
    (∀ t : PaintManager X, t.device_.is_null = true → ∀ d, applyDamage t d = .fault t) ∧
    (∀ evs o, (∀ e ∈ evs, e.allocates = false) →
      run { s with device_ := DeviceContext2D.null } evs = some o →
        o.state.device_.is_null = true) := by
  refine ⟨?_, ?_, ?_⟩
  · simp [SetSize, hne, DeviceContext2D.create, DeviceContext2D.null]
  · intro t ht d
    cases d <;> simp [applyDamage, Invalidate, InvalidateRect, ScrollRect, ht]
  · intro evs o hevs h
    exact run_device_null evs _ o rfl hevs h

/-- Witness of C19: the manager with a wake-up and a flush outstanding fails to resize to
50x50; the following `Invalidate` is stopped. -/
theorem C19_failed_resize_witness :
    SetSize afterReentrantCycle ⟨50, 50⟩ false =
      .ok { afterReentrantCycle with device_ := DeviceContext2D.null } ∧
    Invalidate { afterReentrantCycle with device_ := DeviceContext2D.null } =
      .fault { afterReentrantCycle with device_ := DeviceContext2D.null } :=
  match C19_failed_resize afterReentrantCycle ⟨50, 50⟩ (by decide) with
  | ⟨h1, h2, _⟩ => ⟨h1, h2 _ rfl Damage.Invalidate⟩

/-- C18 (the code breaks the claim). The copy constructor of `FontDescription` is `*this =
other`, and `operator=` starts by copy-constructing its argument: whatever bound is put on the
depth of the nested calls, neither the copy constructor nor the assignment returns. -/
theorem C18_copy_never_returns (raw : Nat → FontDescription) (fuel : Nat) :
    ∀ d x : FontDescription,
      FontDescription.copyConstruct raw fuel d = none ∧
      FontDescription.assign raw fuel x d = none := by
  induction fuel with
  | zero => exact fun _ _ => ⟨rfl, rfl⟩
  | succ n ih =>
    intro d x
    constructor
    · rw [FontDescription.copyConstruct]
      exact (ih d _).2
    · rw [FontDescription.assign, (ih d x).1]

end Claims

end pp
